import Mathlib

/-!
Verification of the fireworks particle engine (FireworksCanvas component).

The development shallowly embeds the engine's data model and operations:

* screen coordinates and physics are real numbers;
* `Math.random()` is modelled as an oracle `σ : ℕ → ℝ` of successive draws
  together with an explicit cursor `k : ℕ` that every consuming operation
  threads through and advances (one unit per call, in source order);
  `streamFrac σ` states the oracle only produces values in `[0, 1)`,
  which is the contract of `Math.random()`;
* the mutable arrays `fireworksRef.current` / `particlesRef.current` become
  lists threaded through explicit step functions; the animation loops, which
  iterate those arrays from the last index down to 0 and splice arrived or
  faded entries in place, are embedded as folds over the reversed lists whose
  surviving entries are reversed back at the end;
* optional fields (`customColor?`, `size?`, `shimmer?`, ...) become `Option`
  or defaulted fields; JavaScript truthiness tests on them are modelled by
  `Option.isSome` (no call site passes an empty string or the number 0 where
  it would change the branch taken).
-/

/-- 2D point (`Point` of the shared types file). -/
@[ext]
structure Point where
  x : ℝ
  y : ℝ

instance : Inhabited Point := ⟨⟨0, 0⟩⟩

/-- The `Math.random()` oracle: draw `n` is `σ n`. -/
abbrev RSrc := ℕ → ℝ

/-- The contract of `Math.random()`: every draw lies in `[0, 1)`. -/
def streamFrac (σ : RSrc) : Prop := ∀ n, 0 ≤ σ n ∧ σ n < 1

/-- One call of `Math.random()` at cursor `k`. -/
def mathRandom (σ : RSrc) (k : ℕ) : ℝ × ℕ := (σ k, k + 1)

/-- `const random = (min, max) => Math.random() * (max - min) + min`. -/
def random (lo hi : ℝ) (σ : RSrc) (k : ℕ) : ℝ × ℕ := (σ k * (hi - lo) + lo, k + 1)

/-- `normalizePath` (FireworksCanvas, lines 80-93): bounding box of the point
set, translate its center to the origin, scale the larger dimension to 2.
The source seeds the min/max folds with `Infinity` / `-Infinity` over all
points; since the empty list returns early, seeding with the first point's
coordinate instead is the same fold result.  `Math.max(width, height) || 1`
(the divide-by-zero fallback) is the `if ... = 0 then 1` below. -/
noncomputable def normalizePath : List Point → List Point
  | [] => []
  | p0 :: rest =>
    let points := p0 :: rest
    let minX := points.foldl (fun m p => min m p.x) p0.x
    let maxX := points.foldl (fun m p => max m p.x) p0.x
    let minY := points.foldl (fun m p => min m p.y) p0.y
    let maxY := points.foldl (fun m p => max m p.y) p0.y
    let centerX := (minX + maxX) / 2
    let centerY := (minY + maxY) / 2
    let width := maxX - minX
    let height := maxY - minY
    let maxDim := if max width height = 0 then 1 else max width height
    let scaleFactor := 2 / maxDim
    points.map fun p => { x := (p.x - centerX) * scaleFactor, y := (p.y - centerY) * scaleFactor }

section NormalizeLemmas

/-- A fold of a pairwise operation through a map commutes with a function
that distributes over the operation. -/
theorem foldl_hom_of_comm (f : ℝ → ℝ → ℝ) (φ : ℝ → ℝ)
    (hφ : ∀ u v, φ (f u v) = f (φ u) (φ v)) :
    ∀ (l : List ℝ) (a : ℝ), (l.map φ).foldl f (φ a) = φ (l.foldl f a)
  | [], _ => rfl
  | x :: l, a => by
    simp only [List.map_cons, List.foldl_cons, ← hφ a x]
    exact foldl_hom_of_comm f φ hφ l (f a x)

theorem min_affine (s t u v : ℝ) (hs : 0 ≤ s) :
    (min u v - t) * s = min ((u - t) * s) ((v - t) * s) := by
  rcases le_total u v with h | h
  · rw [min_eq_left h, min_eq_left (by nlinarith)]
  · rw [min_eq_right h, min_eq_right (by nlinarith)]

theorem max_affine (s t u v : ℝ) (hs : 0 ≤ s) :
    (max u v - t) * s = max ((u - t) * s) ((v - t) * s) := by
  rcases le_total u v with h | h
  · rw [max_eq_right h, max_eq_right (by nlinarith)]
  · rw [max_eq_left h, max_eq_left (by nlinarith)]

theorem foldl_min_le_init : ∀ (l : List ℝ) (a : ℝ), l.foldl min a ≤ a
  | [], _ => le_refl _
  | x :: l, a => le_trans (foldl_min_le_init l (min a x)) (min_le_left a x)

theorem foldl_min_le_mem : ∀ (l : List ℝ) (a b : ℝ), b ∈ l → l.foldl min a ≤ b
  | x :: l, a, b, h => by
    rcases List.mem_cons.1 h with rfl | h
    · exact le_trans (foldl_min_le_init l (min a b)) (min_le_right a b)
    · exact foldl_min_le_mem l (min a x) b h

theorem init_le_foldl_max : ∀ (l : List ℝ) (a : ℝ), a ≤ l.foldl max a
  | [], _ => le_refl _
  | x :: l, a => le_trans (le_max_left a x) (init_le_foldl_max l (max a x))

theorem mem_le_foldl_max : ∀ (l : List ℝ) (a b : ℝ), b ∈ l → b ≤ l.foldl max a
  | x :: l, a, b, h => by
    rcases List.mem_cons.1 h with rfl | h
    · exact le_trans (le_max_right a b) (init_le_foldl_max l (max a b))
    · exact mem_le_foldl_max l (max a x) b h

end NormalizeLemmas

namespace NormAux

/-- The bounding-box quantities `normalizePath` computes, as standalone
functions of the (nonempty) point list, for reasoning about the map. -/
noncomputable def minX : List Point → ℝ
  | [] => 0
  | p0 :: rest => (p0 :: rest).foldl (fun m p => min m p.x) p0.x

noncomputable def maxX : List Point → ℝ
  | [] => 0
  | p0 :: rest => (p0 :: rest).foldl (fun m p => max m p.x) p0.x

noncomputable def minY : List Point → ℝ
  | [] => 0
  | p0 :: rest => (p0 :: rest).foldl (fun m p => min m p.y) p0.y

noncomputable def maxY : List Point → ℝ
  | [] => 0
  | p0 :: rest => (p0 :: rest).foldl (fun m p => max m p.y) p0.y

noncomputable def centerX (l : List Point) : ℝ := (minX l + maxX l) / 2

noncomputable def centerY (l : List Point) : ℝ := (minY l + maxY l) / 2

noncomputable def width (l : List Point) : ℝ := maxX l - minX l

noncomputable def height (l : List Point) : ℝ := maxY l - minY l

noncomputable def maxDim (l : List Point) : ℝ :=
  if max (width l) (height l) = 0 then 1 else max (width l) (height l)

noncomputable def scaleF (l : List Point) : ℝ := 2 / maxDim l

/-- The affine per-point transform `normalizePath` applies. -/
noncomputable def affineMap (tx ty s : ℝ) (p : Point) : Point :=
  { x := (p.x - tx) * s, y := (p.y - ty) * s }

end NormAux

theorem normalizePath_cons (p0 : Point) (rest : List Point) :
    normalizePath (p0 :: rest) =
      (p0 :: rest).map
        (NormAux.affineMap (NormAux.centerX (p0 :: rest)) (NormAux.centerY (p0 :: rest))
          (NormAux.scaleF (p0 :: rest))) := rfl

namespace NormAux

theorem minX_eq (p0 : Point) (rest : List Point) :
    minX (p0 :: rest) = ((p0 :: rest).map Point.x).foldl min p0.x := by
  simp only [minX, List.foldl_map]

theorem maxX_eq (p0 : Point) (rest : List Point) :
    maxX (p0 :: rest) = ((p0 :: rest).map Point.x).foldl max p0.x := by
  simp only [maxX, List.foldl_map]

theorem minY_eq (p0 : Point) (rest : List Point) :
    minY (p0 :: rest) = ((p0 :: rest).map Point.y).foldl min p0.y := by
  simp only [minY, List.foldl_map]

theorem maxY_eq (p0 : Point) (rest : List Point) :
    maxY (p0 :: rest) = ((p0 :: rest).map Point.y).foldl max p0.y := by
  simp only [maxY, List.foldl_map]

theorem minX_le (p0 : Point) (rest : List Point) {p : Point} (hp : p ∈ p0 :: rest) :
    minX (p0 :: rest) ≤ p.x := by
  rw [minX_eq]
  exact foldl_min_le_mem _ _ _ (List.mem_map_of_mem Point.x hp)

theorem le_maxX (p0 : Point) (rest : List Point) {p : Point} (hp : p ∈ p0 :: rest) :
    p.x ≤ maxX (p0 :: rest) := by
  rw [maxX_eq]
  exact mem_le_foldl_max _ _ _ (List.mem_map_of_mem Point.x hp)

theorem minY_le (p0 : Point) (rest : List Point) {p : Point} (hp : p ∈ p0 :: rest) :
    minY (p0 :: rest) ≤ p.y := by
  rw [minY_eq]
  exact foldl_min_le_mem _ _ _ (List.mem_map_of_mem Point.y hp)

theorem le_maxY (p0 : Point) (rest : List Point) {p : Point} (hp : p ∈ p0 :: rest) :
    p.y ≤ maxY (p0 :: rest) := by
  rw [maxY_eq]
  exact mem_le_foldl_max _ _ _ (List.mem_map_of_mem Point.y hp)

theorem width_nonneg (p0 : Point) (rest : List Point) : 0 ≤ width (p0 :: rest) :=
  sub_nonneg.2 (le_trans (minX_le p0 rest (List.mem_cons_self _ _)) (le_maxX p0 rest (List.mem_cons_self _ _)))

theorem height_nonneg (p0 : Point) (rest : List Point) : 0 ≤ height (p0 :: rest) :=
  sub_nonneg.2 (le_trans (minY_le p0 rest (List.mem_cons_self _ _)) (le_maxY p0 rest (List.mem_cons_self _ _)))

theorem maxDim_pos (p0 : Point) (rest : List Point) : 0 < maxDim (p0 :: rest) := by
  unfold maxDim
  split
  · norm_num
  · next h =>
    rcases lt_or_eq_of_le (le_trans (width_nonneg p0 rest) (le_max_left _ (height (p0 :: rest)))) with h' | h'
    · exact h'
    · exact absurd h'.symm h

theorem scaleF_pos (p0 : Point) (rest : List Point) : 0 < scaleF (p0 :: rest) :=
  div_pos (by norm_num) (maxDim_pos p0 rest)

theorem minX_map_affine (tx ty s : ℝ) (hs : 0 ≤ s) (p0 : Point) (rest : List Point) :
    minX ((p0 :: rest).map (affineMap tx ty s)) = (minX (p0 :: rest) - tx) * s := by
  rw [List.map_cons, minX_eq, ← List.map_cons, List.map_map]
  have hc : Point.x ∘ affineMap tx ty s = (fun v => (v - tx) * s) ∘ Point.x := rfl
  rw [hc, ← List.map_map]
  have hseed : (affineMap tx ty s p0).x = (p0.x - tx) * s := rfl
  rw [hseed,
    foldl_hom_of_comm min (fun v => (v - tx) * s) (fun u v => min_affine s tx u v hs),
    minX_eq]

theorem maxX_map_affine (tx ty s : ℝ) (hs : 0 ≤ s) (p0 : Point) (rest : List Point) :
    maxX ((p0 :: rest).map (affineMap tx ty s)) = (maxX (p0 :: rest) - tx) * s := by
  rw [List.map_cons, maxX_eq, ← List.map_cons, List.map_map]
  have hc : Point.x ∘ affineMap tx ty s = (fun v => (v - tx) * s) ∘ Point.x := rfl
  rw [hc, ← List.map_map]
  have hseed : (affineMap tx ty s p0).x = (p0.x - tx) * s := rfl
  rw [hseed,
    foldl_hom_of_comm max (fun v => (v - tx) * s) (fun u v => max_affine s tx u v hs),
    maxX_eq]

theorem minY_map_affine (tx ty s : ℝ) (hs : 0 ≤ s) (p0 : Point) (rest : List Point) :
    minY ((p0 :: rest).map (affineMap tx ty s)) = (minY (p0 :: rest) - ty) * s := by
  rw [List.map_cons, minY_eq, ← List.map_cons, List.map_map]
  have hc : Point.y ∘ affineMap tx ty s = (fun v => (v - ty) * s) ∘ Point.y := rfl
  rw [hc, ← List.map_map]
  have hseed : (affineMap tx ty s p0).y = (p0.y - ty) * s := rfl
  rw [hseed,
    foldl_hom_of_comm min (fun v => (v - ty) * s) (fun u v => min_affine s ty u v hs),
    minY_eq]

theorem maxY_map_affine (tx ty s : ℝ) (hs : 0 ≤ s) (p0 : Point) (rest : List Point) :
    maxY ((p0 :: rest).map (affineMap tx ty s)) = (maxY (p0 :: rest) - ty) * s := by
  rw [List.map_cons, maxY_eq, ← List.map_cons, List.map_map]
  have hc : Point.y ∘ affineMap tx ty s = (fun v => (v - ty) * s) ∘ Point.y := rfl
  rw [hc, ← List.map_map]
  have hseed : (affineMap tx ty s p0).y = (p0.y - ty) * s := rfl
  rw [hseed,
    foldl_hom_of_comm max (fun v => (v - ty) * s) (fun u v => max_affine s ty u v hs),
    maxY_eq]

end NormAux

theorem max_mul_right_nonneg (a b s : ℝ) (hs : 0 ≤ s) : max (a * s) (b * s) = max a b * s := by
  rcases le_total a b with h | h
  · rw [max_eq_right (mul_le_mul_of_nonneg_right h hs), max_eq_right h]
  · rw [max_eq_left (mul_le_mul_of_nonneg_right h hs), max_eq_left h]

/-- If the bounding box is degenerate (both dimensions zero), every point of
the list sits at the box center. -/
theorem degenerate_center (p0 : Point) (rest : List Point)
    (hm : max (NormAux.width (p0 :: rest)) (NormAux.height (p0 :: rest)) = 0)
    {p : Point} (hp : p ∈ p0 :: rest) :
    p.x = NormAux.centerX (p0 :: rest) ∧ p.y = NormAux.centerY (p0 :: rest) := by
  have hw : NormAux.width (p0 :: rest) = 0 :=
    le_antisymm (hm ▸ le_max_left _ _) (NormAux.width_nonneg p0 rest)
  have hh : NormAux.height (p0 :: rest) = 0 :=
    le_antisymm (hm ▸ le_max_right _ _) (NormAux.height_nonneg p0 rest)
  have hx1 := NormAux.minX_le p0 rest hp
  have hx2 := NormAux.le_maxX p0 rest hp
  have hy1 := NormAux.minY_le p0 rest hp
  have hy2 := NormAux.le_maxY p0 rest hp
  unfold NormAux.width at hw
  unfold NormAux.height at hh
  unfold NormAux.centerX NormAux.centerY
  constructor <;> linarith

/-- The bounding-box data of the (nonempty) normalized list: center at the
origin, and the larger dimension on the scale `maxDim * scaleF`. -/
theorem normalized_bbox (p0 : Point) (rest : List Point) :
    NormAux.centerX (normalizePath (p0 :: rest)) = 0 ∧
      NormAux.centerY (normalizePath (p0 :: rest)) = 0 ∧
      max (NormAux.width (normalizePath (p0 :: rest)))
          (NormAux.height (normalizePath (p0 :: rest))) =
        max (NormAux.width (p0 :: rest)) (NormAux.height (p0 :: rest)) *
          NormAux.scaleF (p0 :: rest) := by
  have hs : (0:ℝ) ≤ NormAux.scaleF (p0 :: rest) := le_of_lt (NormAux.scaleF_pos p0 rest)
  rw [normalizePath_cons]
  have hmx := NormAux.minX_map_affine (NormAux.centerX (p0 :: rest))
    (NormAux.centerY (p0 :: rest)) (NormAux.scaleF (p0 :: rest)) hs p0 rest
  have hMx := NormAux.maxX_map_affine (NormAux.centerX (p0 :: rest))
    (NormAux.centerY (p0 :: rest)) (NormAux.scaleF (p0 :: rest)) hs p0 rest
  have hmy := NormAux.minY_map_affine (NormAux.centerX (p0 :: rest))
    (NormAux.centerY (p0 :: rest)) (NormAux.scaleF (p0 :: rest)) hs p0 rest
  have hMy := NormAux.maxY_map_affine (NormAux.centerX (p0 :: rest))
    (NormAux.centerY (p0 :: rest)) (NormAux.scaleF (p0 :: rest)) hs p0 rest
  have cxDef : ∀ l : List Point, NormAux.centerX l = (NormAux.minX l + NormAux.maxX l) / 2 :=
    fun _ => rfl
  have cyDef : ∀ l : List Point, NormAux.centerY l = (NormAux.minY l + NormAux.maxY l) / 2 :=
    fun _ => rfl
  have wDef : ∀ l : List Point, NormAux.width l = NormAux.maxX l - NormAux.minX l :=
    fun _ => rfl
  have hDef : ∀ l : List Point, NormAux.height l = NormAux.maxY l - NormAux.minY l :=
    fun _ => rfl
  refine ⟨?_, ?_, ?_⟩
  · rw [cxDef, hmx, hMx, cxDef]
    ring
  · rw [cyDef, hmy, hMy, cyDef]
    ring
  · rw [wDef, hDef, hmx, hMx, hmy, hMy]
    have ex : (NormAux.maxX (p0 :: rest) - NormAux.centerX (p0 :: rest)) *
          NormAux.scaleF (p0 :: rest) -
        (NormAux.minX (p0 :: rest) - NormAux.centerX (p0 :: rest)) *
          NormAux.scaleF (p0 :: rest) =
        NormAux.width (p0 :: rest) * NormAux.scaleF (p0 :: rest) := by
      unfold NormAux.width; ring
    have ey : (NormAux.maxY (p0 :: rest) - NormAux.centerY (p0 :: rest)) *
          NormAux.scaleF (p0 :: rest) -
        (NormAux.minY (p0 :: rest) - NormAux.centerY (p0 :: rest)) *
          NormAux.scaleF (p0 :: rest) =
        NormAux.height (p0 :: rest) * NormAux.scaleF (p0 :: rest) := by
      unfold NormAux.height; ring
    rw [ex, ey, max_mul_right_nonneg _ _ _ hs]

/-- Applying `normalizePath` twice gives the same list as applying it once. -/
theorem normalizePath_idempotent : ∀ l : List Point,
    normalizePath (normalizePath l) = normalizePath l
  | [] => rfl
  | p0 :: rest => by
    obtain ⟨hc0, hc0y, hmm⟩ := normalized_bbox p0 rest
    have hN : normalizePath (p0 :: rest) =
        NormAux.affineMap (NormAux.centerX (p0 :: rest)) (NormAux.centerY (p0 :: rest))
            (NormAux.scaleF (p0 :: rest)) p0 ::
          rest.map (NormAux.affineMap (NormAux.centerX (p0 :: rest))
            (NormAux.centerY (p0 :: rest)) (NormAux.scaleF (p0 :: rest))) := by
      rw [normalizePath_cons, List.map_cons]
    rw [hN, normalizePath_cons, ← hN]
    by_cases hm : max (NormAux.width (p0 :: rest)) (NormAux.height (p0 :: rest)) = 0
    · -- degenerate box: every normalized point is the origin already
      have hall : ∀ q ∈ normalizePath (p0 :: rest), q.x = 0 ∧ q.y = 0 := by
        intro q hq
        rw [normalizePath_cons] at hq
        obtain ⟨p, hp, rfl⟩ := List.mem_map.1 hq
        obtain ⟨hpx, hpy⟩ := degenerate_center p0 rest hm hp
        constructor
        · show (p.x - NormAux.centerX (p0 :: rest)) * NormAux.scaleF (p0 :: rest) = 0
          rw [hpx, sub_self, zero_mul]
        · show (p.y - NormAux.centerY (p0 :: rest)) * NormAux.scaleF (p0 :: rest) = 0
          rw [hpy, sub_self, zero_mul]
      have : ∀ q ∈ normalizePath (p0 :: rest),
          NormAux.affineMap (NormAux.centerX (normalizePath (p0 :: rest)))
              (NormAux.centerY (normalizePath (p0 :: rest)))
              (NormAux.scaleF (normalizePath (p0 :: rest))) q = q := by
        intro q hq
        obtain ⟨hqx, hqy⟩ := hall q hq
        unfold NormAux.affineMap
        rw [hc0, hc0y, hqx, hqy]
        simp only [sub_zero, zero_mul]
        exact Point.ext hqx.symm hqy.symm
      rw [List.map_congr_left this, List.map_id']
    · -- nondegenerate box: the normalized box has larger dimension exactly 2
      have hmpos : 0 < max (NormAux.width (p0 :: rest)) (NormAux.height (p0 :: rest)) := by
        rcases lt_or_eq_of_le (le_trans (NormAux.width_nonneg p0 rest)
          (le_max_left _ (NormAux.height (p0 :: rest)))) with h | h
        · exact h
        · exact absurd h.symm hm
      have hdim : NormAux.maxDim (p0 :: rest) =
          max (NormAux.width (p0 :: rest)) (NormAux.height (p0 :: rest)) := by
        unfold NormAux.maxDim; rw [if_neg hm]
      have hm2 : max (NormAux.width (normalizePath (p0 :: rest)))
          (NormAux.height (normalizePath (p0 :: rest))) = 2 := by
        rw [hmm]
        unfold NormAux.scaleF
        rw [hdim]
        field_simp
      have hscale1 : NormAux.scaleF (normalizePath (p0 :: rest)) = 1 := by
        unfold NormAux.scaleF NormAux.maxDim
        rw [hm2]
        norm_num
      have : ∀ q ∈ normalizePath (p0 :: rest),
          NormAux.affineMap (NormAux.centerX (normalizePath (p0 :: rest)))
              (NormAux.centerY (normalizePath (p0 :: rest)))
              (NormAux.scaleF (normalizePath (p0 :: rest))) q = q := by
        intro q _
        unfold NormAux.affineMap
        rw [hc0, hc0y, hscale1]
        simp only [sub_zero, mul_one]
      rw [List.map_congr_left this, List.map_id']

/-- Scaling every raw coordinate by a positive constant does not change the
normalized output. -/
theorem normalizePath_scale (c : ℝ) (hc : 0 < c) : ∀ l : List Point,
    normalizePath (l.map fun q => Point.mk (q.x * c) (q.y * c)) = normalizePath l
  | [] => rfl
  | p0 :: rest => by
    have hG : (fun q : Point => Point.mk (q.x * c) (q.y * c)) = NormAux.affineMap 0 0 c := by
      funext q
      unfold NormAux.affineMap
      simp
    rw [hG]
    have hs : (0:ℝ) ≤ c := le_of_lt hc
    have hmx := NormAux.minX_map_affine 0 0 c hs p0 rest
    have hMx := NormAux.maxX_map_affine 0 0 c hs p0 rest
    have hmy := NormAux.minY_map_affine 0 0 c hs p0 rest
    have hMy := NormAux.maxY_map_affine 0 0 c hs p0 rest
    have hcx : NormAux.centerX ((p0 :: rest).map (NormAux.affineMap 0 0 c)) =
        NormAux.centerX (p0 :: rest) * c := by
      unfold NormAux.centerX
      rw [hmx, hMx]
      ring
    have hcy : NormAux.centerY ((p0 :: rest).map (NormAux.affineMap 0 0 c)) =
        NormAux.centerY (p0 :: rest) * c := by
      unfold NormAux.centerY
      rw [hmy, hMy]
      ring
    have hw : NormAux.width ((p0 :: rest).map (NormAux.affineMap 0 0 c)) =
        NormAux.width (p0 :: rest) * c := by
      unfold NormAux.width
      rw [hmx, hMx]
      ring
    have hh : NormAux.height ((p0 :: rest).map (NormAux.affineMap 0 0 c)) =
        NormAux.height (p0 :: rest) * c := by
      unfold NormAux.height
      rw [hmy, hMy]
      ring
    rw [List.map_cons, normalizePath_cons, ← List.map_cons, normalizePath_cons, List.map_map]
    apply List.map_congr_left
    intro p hp
    by_cases hm : max (NormAux.width (p0 :: rest)) (NormAux.height (p0 :: rest)) = 0
    · have hsFL : NormAux.scaleF (p0 :: rest) = 2 := by
        unfold NormAux.scaleF NormAux.maxDim
        rw [if_pos hm]
        norm_num
      have hm' : max (NormAux.width ((p0 :: rest).map (NormAux.affineMap 0 0 c)))
          (NormAux.height ((p0 :: rest).map (NormAux.affineMap 0 0 c))) = 0 := by
        rw [hw, hh, max_mul_right_nonneg _ _ _ hs, hm, zero_mul]
      have hsF' : NormAux.scaleF ((p0 :: rest).map (NormAux.affineMap 0 0 c)) = 2 := by
        unfold NormAux.scaleF NormAux.maxDim
        rw [if_pos hm']
        norm_num
      obtain ⟨hpx, hpy⟩ := degenerate_center p0 rest hm hp
      simp only [Function.comp_apply]
      rw [hcx, hcy, hsF', hsFL]
      refine Point.ext ?_ ?_ <;> simp only [NormAux.affineMap] <;> simp only [hpx, hpy] <;> ring
    · have hc0 : c ≠ 0 := ne_of_gt hc
      have hsFL : NormAux.scaleF (p0 :: rest) =
          2 / max (NormAux.width (p0 :: rest)) (NormAux.height (p0 :: rest)) := by
        unfold NormAux.scaleF NormAux.maxDim
        rw [if_neg hm]
      have hm' : max (NormAux.width ((p0 :: rest).map (NormAux.affineMap 0 0 c)))
          (NormAux.height ((p0 :: rest).map (NormAux.affineMap 0 0 c))) =
          max (NormAux.width (p0 :: rest)) (NormAux.height (p0 :: rest)) * c := by
        rw [hw, hh, max_mul_right_nonneg _ _ _ hs]
      have hsF' : NormAux.scaleF ((p0 :: rest).map (NormAux.affineMap 0 0 c)) =
          2 / (max (NormAux.width (p0 :: rest)) (NormAux.height (p0 :: rest)) * c) := by
        unfold NormAux.scaleF NormAux.maxDim
        rw [hm', if_neg (mul_ne_zero hm hc0)]
      simp only [Function.comp_apply]
      rw [hcx, hcy, hsF', hsFL]
      refine Point.ext ?_ ?_ <;> simp only [NormAux.affineMap] <;> field_simp <;> ring

/-- A single click produces the degenerate box handled by the `|| 1`
fallback divisor: the output is the single origin point. -/
theorem normalizePath_single (p : Point) : normalizePath [p] = [{ x := 0, y := 0 }] := by
  rw [normalizePath_cons]
  have h1 : NormAux.minX [p] = p.x := by simp [NormAux.minX]
  have h2 : NormAux.maxX [p] = p.x := by simp [NormAux.maxX]
  have h3 : NormAux.minY [p] = p.y := by simp [NormAux.minY]
  have h4 : NormAux.maxY [p] = p.y := by simp [NormAux.maxY]
  have hw : NormAux.width [p] = 0 := by
    unfold NormAux.width
    rw [h1, h2, sub_self]
  have hh : NormAux.height [p] = 0 := by
    unfold NormAux.height
    rw [h3, h4, sub_self]
  have hcx : NormAux.centerX [p] = p.x := by
    unfold NormAux.centerX
    rw [h1, h2]
    ring
  have hcy : NormAux.centerY [p] = p.y := by
    unfold NormAux.centerY
    rw [h3, h4]
    ring
  have hsF : NormAux.scaleF [p] = 2 := by
    unfold NormAux.scaleF NormAux.maxDim
    rw [hw, hh]
    norm_num
  rw [List.map_cons, List.map_nil]
  unfold NormAux.affineMap
  rw [hcx, hcy, hsF]
  simp

/-- C3: `normalizePath` is idempotent, invariant under positive uniform
scaling of the raw input, and maps a degenerate single-point input — via the
fallback divisor 1 — to the single origin point instead of dividing by
zero. -/
theorem normalizePath_idem_scale_degenerate (ps : List Point) (c : ℝ) (p : Point) :
    normalizePath (normalizePath ps) = normalizePath ps ∧
    (0 < c → normalizePath (ps.map fun q => Point.mk (q.x * c) (q.y * c)) = normalizePath ps) ∧
    normalizePath [p] = [{ x := 0, y := 0 }] :=
  ⟨normalizePath_idempotent ps, fun hc => normalizePath_scale c hc ps, normalizePath_single p⟩

/-- The C3 property instantiated at a concrete point set and scale 2. -/
theorem normalizePath_idem_scale_degenerate_witness :
    (0:ℝ) < 2 ∧
      normalizePath (([⟨0, 0⟩, ⟨4, 2⟩] : List Point).map fun q => Point.mk (q.x * 2) (q.y * 2)) =
        normalizePath ([⟨0, 0⟩, ⟨4, 2⟩] : List Point) ∧
      normalizePath [(⟨7, 9⟩ : Point)] = [{ x := 0, y := 0 }] :=
  ⟨by norm_num,
    (normalizePath_idem_scale_degenerate ([⟨0, 0⟩, ⟨4, 2⟩] : List Point) 2 ⟨7, 9⟩).2.1
      (by norm_num),
    (normalizePath_idem_scale_degenerate ([⟨0, 0⟩, ⟨4, 2⟩] : List Point) 2 ⟨7, 9⟩).2.2⟩

/-! ## Auto-fire round-robin pattern selection -/

/-- `FIREWORK_TYPES` (lines 11-13): the sixteen pattern tags available to
sequential selection; the drone-display tag `custom_shape` is intentionally
not in this list. -/
def FIREWORK_TYPES : List String :=
  ["standard", "cosmic", "streamer", "palm", "ring", "heart", "glitter", "galaxy",
   "gold_flower", "strobe_flower", "violet_burst", "floral_burst", "cyan_flower",
   "neon_flower", "love_burst", "tree_burst"]

/-- `getNextFireworkType` (lines 72-78): returns the pattern at the current
index and advances the index with wraparound.  The mutable
`currentFireworkIndexRef` is the explicit state `i`. -/
def getNextFireworkType (i : ℕ) : String × ℕ :=
  (FIREWORK_TYPES.getD i "undefined", (i + 1) % FIREWORK_TYPES.length)

/-- The tags produced by `n` successive auto-fire selections starting from
index state `i`. -/
def autoFireSeq : ℕ → ℕ → List String
  | _, 0 => []
  | i, n + 1 =>
    let (t, i1) := getNextFireworkType i
    t :: autoFireSeq i1 n

/-- The index state after `n` selections. -/
def advIdx : ℕ → ℕ → ℕ
  | i, 0 => i
  | i, n + 1 => advIdx ((i + 1) % FIREWORK_TYPES.length) n

theorem autoFireSeq_append : ∀ (a b i : ℕ),
    autoFireSeq i (a + b) = autoFireSeq i a ++ autoFireSeq (advIdx i a) b
  | 0, b, i => by rw [Nat.zero_add]; rfl
  | a + 1, b, i => by
    have : a + 1 + b = (a + b) + 1 := by omega
    rw [this]
    show (FIREWORK_TYPES.getD i "undefined") :: autoFireSeq ((i + 1) % FIREWORK_TYPES.length) (a + b) = _
    rw [autoFireSeq_append a b ((i + 1) % FIREWORK_TYPES.length)]
    rfl

theorem getD_types_ne_drone (i : ℕ) : FIREWORK_TYPES.getD i "undefined" ≠ "custom_shape" := by
  by_cases h : i < FIREWORK_TYPES.length
  · have hall : ∀ j : Fin FIREWORK_TYPES.length,
        FIREWORK_TYPES.getD (j : ℕ) "undefined" ≠ "custom_shape" := by decide
    exact hall ⟨i, h⟩
  · rw [List.getD_eq_default _ _ (le_of_not_lt h)]
    decide

theorem autoFireSeq_no_drone : ∀ (n i : ℕ), "custom_shape" ∉ autoFireSeq i n
  | 0, _ => List.not_mem_nil _
  | n + 1, i => by
    intro hmem
    rcases List.mem_cons.1 hmem with h | h
    · exact getD_types_ne_drone i h.symm
    · exact autoFireSeq_no_drone n ((i + 1) % FIREWORK_TYPES.length) h

theorem autoFireSeq_covers : ∀ i : Fin FIREWORK_TYPES.length, ∀ t ∈ FIREWORK_TYPES,
    t ∈ autoFireSeq (i : ℕ) FIREWORK_TYPES.length := by decide

/-- C4: starting from any reachable selector state, any run of at least 16
consecutive auto-fire selections returns every one of the 16 non-drone
pattern tags at least once and never returns the drone tag
`custom_shape`. -/
theorem autoFire_roundRobin_no_drone (i n : ℕ)
    (hi : i < FIREWORK_TYPES.length) (hn : FIREWORK_TYPES.length ≤ n) :
    (∀ t ∈ FIREWORK_TYPES, t ∈ autoFireSeq i n) ∧ "custom_shape" ∉ autoFireSeq i n := by
  constructor
  · intro t ht
    have hsplit := autoFireSeq_append FIREWORK_TYPES.length (n - FIREWORK_TYPES.length) i
    rw [Nat.add_sub_cancel' hn] at hsplit
    rw [hsplit]
    exact List.mem_append_left _ (autoFireSeq_covers ⟨i, hi⟩ t ht)
  · exact autoFireSeq_no_drone n i

/-- The C4 property at the initial selector state and the minimal run
length 16. -/
theorem autoFire_roundRobin_no_drone_witness :
    ((0 : ℕ) < FIREWORK_TYPES.length ∧ FIREWORK_TYPES.length ≤ 16) ∧
      (∀ t ∈ FIREWORK_TYPES, t ∈ autoFireSeq 0 16) ∧ "custom_shape" ∉ autoFireSeq 0 16 :=
  ⟨⟨by decide, by decide⟩, autoFire_roundRobin_no_drone 0 16 (by decide) (by decide)⟩

/-! ## Data model: particles and fireworks -/

/-- `FireworkParticle` of the shared types file.  Optional fields keep the
JavaScript omitted-field behaviour: an omitted `useTrail`/`shimmer` is falsy,
an omitted `size` is `none`, `trail` starts absent (empty). -/
structure Particle where
  x : ℝ
  y : ℝ
  vx : ℝ
  vy : ℝ
  alpha : ℝ
  color : String
  decay : ℝ
  useTrail : Bool := false
  trail : List Point := []
  size : Option ℝ := none
  shimmer : Bool := false
  shape : Option String := none

instance : Inhabited Particle :=
  ⟨{ x := 0, y := 0, vx := 0, vy := 0, alpha := 0, color := "", decay := 0 }⟩

/-- `Firework` of the shared types file (a launched projectile). -/
structure Firework where
  x : ℝ
  y : ℝ
  targetX : ℝ
  targetY : ℝ
  speed : ℝ
  angle : ℝ
  hue : ℝ
  brightness : ℝ
  distanceToTarget : ℝ
  distanceTraveled : ℝ
  coordinates : List Point
  coordinateCount : ℕ
  exploded : Bool
  type : String
  customColor : Option String := none
  trailWidth : Option ℝ := none

instance : Inhabited Firework :=
  ⟨{ x := 0, y := 0, targetX := 0, targetY := 0, speed := 0, angle := 0, hue := 0,
     brightness := 0, distanceToTarget := 0, distanceTraveled := 0, coordinates := [],
     coordinateCount := 0, exploded := false, type := "standard" }⟩

/-! ## Color palettes (lines 15-37) -/

def STANDARD_COLORS : List String :=
  ["255, 182, 193", "216, 191, 216", "176, 196, 222", "143, 188, 143",
   "233, 150, 122", "176, 224, 230"]

def COSMIC_CORE_COLORS : List String := ["0, 191, 255", "138, 43, 226", "75, 0, 130"]

def COSMIC_RAY_COLORS : List String := ["255, 255, 255", "224, 255, 255"]

def STREAMER_COLORS : List String :=
  ["255, 250, 250", "224, 255, 255", "192, 192, 192", "255, 182, 193", "135, 206, 250"]

def NEON_COLORS : List String := ["255, 20, 147", "0, 255, 127", "0, 255, 255", "138, 43, 226"]

def ICE_COLORS : List String := ["240, 255, 255", "224, 255, 255", "175, 238, 238"]

def GRADIENT_THEMES : List (List String) :=
  [["219, 112, 147", "188, 143, 143", "240, 230, 140"],
   ["176, 224, 230", "147, 112, 219", "221, 160, 221"],
   ["233, 150, 122", "244, 164, 96", "253, 245, 230"],
   ["143, 188, 143", "102, 205, 170", "173, 216, 230"]]

/-- `COLORS[Math.floor(Math.random() * COLORS.length)]`: random palette
element; the `"undefined"` default marks the out-of-range access JavaScript
would give when the draw is outside `[0, 1)`. -/
noncomputable def pickColor (l : List String) (r : ℝ) : String :=
  l.getD (Int.floor (r * (l.length : ℝ))).toNat "undefined"

/-! ## Explosion pattern library (`createExplosion`, lines 167-571)

Each `for` loop of the source becomes `genLoop body i n k`: run `body` for
loop counters `i, i+1, ..., i+n-1`, threading the random cursor, and
concatenate the produced particle batches in order. -/

def genLoop (body : ℕ → ℕ → List Particle × ℕ) : ℕ → ℕ → ℕ → List Particle × ℕ
  | _, 0, k => ([], k)
  | i, n + 1, k =>
    let (ps, k1) := body i k
    let (rest, k2) := genLoop body (i + 1) n k1
    (ps ++ rest, k2)

/-- Drone-display branch (lines 175-205): one static particle per point of
the stored custom shape, at `origin + point * 60`, tiny velocity jitter,
3-color palette, trail disabled. -/
noncomputable def droneLoop (σ : RSrc) (x y : ℝ) : List Point → ℕ → List Particle × ℕ
  | [], k => ([], k)
  | p :: rest, k =>
    let scale : ℝ := 60
    let (rand, k1) := mathRandom σ k
    let color := if rand > 0.8 then "#FFFFFF" else if rand > 0.5 then "#1E90FF" else "#00FFFF"
    let (rvx, k2) := mathRandom σ k1
    let (rvy, k3) := mathRandom σ k2
    let (d, k4) := random 0.04 0.06 σ k3
    let part : Particle :=
      { x := x + p.x * scale, y := y + p.y * scale,
        vx := (rvx - 0.5) * 0.15, vy := (rvy - 0.5) * 0.15,
        alpha := 1, color := color, decay := d, useTrail := false,
        size := some (if rand > 0.9 then 1.5 else 0.8), shimmer := true }
    let (rest1, k5) := droneLoop σ x y rest k4
    (part :: rest1, k5)

/-- Override-color branch (lines 209-224): small fixed burst of 10. -/
noncomputable def customColorBurst (σ : RSrc) (x y : ℝ) (cc : String) (k : ℕ) :
    List Particle × ℕ :=
  genLoop (fun _ k =>
    let (rx, k) := mathRandom σ k
    let (ry, k) := mathRandom σ k
    ([{ x := x, y := y, vx := (rx - 0.5) * 3, vy := (ry - 0.5) * 3, alpha := 1,
        color := cc, decay := 0.1, useTrail := false, size := some 2 }], k)) 0 10 k

/-- Tree burst (lines 227-298): trunk, roots and canopy passes. -/
noncomputable def treeBurst (σ : RSrc) (x y : ℝ) (k : ℕ) : List Particle × ℕ :=
  let treeWidth : ℝ := 62
  let treeHeight : ℝ := 55
  let trunkCount : ℕ := 60
  let (trunk, k1) := genLoop (fun i k =>
    let t : ℝ := (i : ℝ) / (trunkCount : ℝ)
    let yPos := y + (t * treeHeight * 0.7)
    let xWag := Real.sin (t * Real.pi * 4) * 2
    let spread := (1 - t) * 3.5
    let (r1, k) := mathRandom σ k
    let xPos := x + xWag + (r1 - 0.5) * spread
    let (rvx, k) := mathRandom σ k
    let (rvy, k) := mathRandom σ k
    let (rc, k) := mathRandom σ k
    let (d, k) := random 0.04 0.06 σ k
    ([{ x := xPos, y := yPos, vx := (rvx - 0.5) * 0.2, vy := (rvy - 0.5) * 0.2, alpha := 1,
        color := if rc > 0.6 then "#00BFFF" else "#E0FFFF", decay := d, useTrail := false,
        size := some 0.9, shimmer := true }], k)) 0 trunkCount k
  let rootY := y + treeHeight * 0.7
  let (roots, k2) := genLoop (fun _ k =>
    let (ra, k) := mathRandom σ k
    let angle := Real.pi / 2 + (ra - 0.5) * 1.5
    let (rl, k) := mathRandom σ k
    let len := rl * 12
    let spiralX := Real.cos angle * len
    let spiralY := Real.sin angle * len
    let (d, k) := random 0.04 0.06 σ k
    ([{ x := x + spiralX, y := rootY + spiralY, vx := 0, vy := 0, alpha := 1,
        color := "#00BFFF", decay := d, size := some 0.8, shimmer := true }], k)) 0 40 k1
  let (leaves, k3) := genLoop (fun _ k =>
    let (rang, k) := mathRandom σ k
    let angle := Real.pi + rang * Real.pi
    let (rr, k) := mathRandom σ k
    let rNorm := rr ^ (0.6 : ℝ)
    let r := rNorm * treeWidth * 0.8
    let lx := x + r * Real.cos angle
    let ly := y + r * Real.sin angle * 0.75
    let (rand, k) := mathRandom σ k
    let color := if rand > 0.8 then "#FFFFFF" else if rand > 0.5 then "#1E90FF" else "#00FFFF"
    let (rvx, k) := mathRandom σ k
    let (rvy, k) := mathRandom σ k
    let (d, k) := random 0.04 0.07 σ k
    ([{ x := lx, y := ly, vx := (rvx - 0.5) * 0.3, vy := (rvy - 0.5) * 0.3, alpha := 1,
        color := color, decay := d, useTrail := false,
        size := some (if rand > 0.9 then 1.2 else 0.7), shimmer := true }], k)) 0 350 k2
  (trunk ++ roots ++ leaves, k3)

/-- Love burst (lines 301-319). -/
noncomputable def loveBurst (σ : RSrc) (x y : ℝ) (k : ℕ) : List Particle × ℕ :=
  genLoop (fun _ k =>
    let (ra, k) := mathRandom σ k
    let angle := ra * (Real.pi * 2)
    let (rs, k) := mathRandom σ k
    let speed := rs * 6 + 2
    let dist := speed / 8
    -- the source initializes color to "#FF69B4" and then overwrites it on every path
    let color := if dist < 0.4 then "#FFFFE0" else if dist < 0.7 then "#FF1493" else "#EE82EE"
    let (d, k) := random 0.04 0.06 σ k
    ([{ x := x, y := y, vx := Real.cos angle * speed, vy := Real.sin angle * speed, alpha := 1,
        color := color, decay := d, useTrail := true, size := some 2.5,
        shape := some "heart", shimmer := true }], k)) 0 120 k

/-- Neon flower (lines 322-352). -/
noncomputable def neonFlower (σ : RSrc) (x y : ℝ) (k : ℕ) : List Particle × ℕ :=
  let petals : ℕ := 5
  let pointsPerPetal : ℕ := 50
  let baseSize : ℝ := 8.5
  let (outer, k1) := genLoop (fun i k =>
    let theta := (Real.pi * 2 * (i : ℝ)) / ((petals * pointsPerPetal : ℕ) : ℝ)
    let rNorm := |Real.cos (2.5 * theta)| ^ (0.6 : ℝ)
    let r := rNorm * baseSize
    let (d, k) := random 0.04 0.06 σ k
    ([{ x := x, y := y, vx := r * Real.cos theta, vy := r * Real.sin theta, alpha := 1,
        color := "#FF4500", decay := d, useTrail := true, size := some 2,
        shimmer := true }], k)) 0 (petals * pointsPerPetal) k
  let (inner, k2) := genLoop (fun i k =>
    let theta := (Real.pi * 2 * (i : ℝ)) / ((petals * (pointsPerPetal / 2) : ℕ) : ℝ)
    let rNorm := |Real.cos (2.5 * theta)| ^ (0.6 : ℝ)
    let r := rNorm * baseSize * 0.65
    let (d, k) := random 0.05 0.07 σ k
    ([{ x := x, y := y, vx := r * Real.cos theta, vy := r * Real.sin theta, alpha := 1,
        color := "#FFFFE0", decay := d, useTrail := false, size := some 1.6,
        shimmer := true }], k)) 0 (petals * (pointsPerPetal / 2)) k1
  let (sparks, k3) := genLoop (fun i k =>
    let angle := (Real.pi * 2 * (i : ℝ)) / 20
    let (speed, k) := random 2 5 σ k
    ([{ x := x, y := y, vx := Real.cos angle * speed, vy := Real.sin angle * speed, alpha := 1,
        color := "#E0FFFF", decay := 0.05, useTrail := true, size := some 1.8,
        shimmer := true }], k)) 0 20 k2
  (outer ++ inner ++ sparks, k3)

/-- Cyan flower (lines 355-367). -/
noncomputable def cyanFlower (σ : RSrc) (x y : ℝ) (k : ℕ) : List Particle × ℕ :=
  genLoop (fun _ k =>
    let (ra, k) := mathRandom σ k
    let angle := ra * (Real.pi * 2)
    let (rd, k) := mathRandom σ k
    let dist := rd ^ (0.5 : ℝ)
    let (rs, k) := mathRandom σ k
    let speed := (5 + rs * 6) * dist
    let color := if dist < 0.2 then "rgb(255, 255, 255)"
      else if dist < 0.6 then "rgb(0, 255, 255)" else "rgb(30, 144, 255)"
    let (d, k) := random 0.04 0.06 σ k
    let (rsz, k) := mathRandom σ k
    ([{ x := x, y := y, vx := Real.cos angle * speed, vy := Real.sin angle * speed, alpha := 1,
        color := color, decay := d, useTrail := true, size := some (rsz * 2.5 + 1),
        shimmer := true }], k)) 0 300 k

/-- Floral burst (lines 370-390). -/
noncomputable def floralBurst (σ : RSrc) (x y : ℝ) (k : ℕ) : List Particle × ℕ :=
  let petalCount : ℝ := 5
  let (petalsP, k1) := genLoop (fun _ k =>
    let (ra, k) := mathRandom σ k
    let angle := ra * (Real.pi * 2)
    let petalShape := |Real.sin (angle * petalCount * 0.5)| ^ (0.4 : ℝ)
    let (rdist, k) := mathRandom σ k
    let dist := rdist * 0.85 + 0.15
    let (rs, k) := mathRandom σ k
    let speed := (4 + rs * 5) * petalShape * dist
    let color := if dist < 0.35 then "#FFF59D" else if dist < 0.65 then "#FF7043"
      else if dist < 0.85 then "#E91E63" else "#9C27B0"
    let (d, k) := random 0.04 0.07 σ k
    ([{ x := x, y := y, vx := Real.cos angle * speed, vy := Real.sin angle * speed, alpha := 1,
        color := color, decay := d, useTrail := true, size := some 2,
        shimmer := true }], k)) 0 350 k
  let (dust, k2) := genLoop (fun _ k =>
    let (ra, k) := mathRandom σ k
    let angle := ra * (Real.pi * 2)
    let (rs, k) := mathRandom σ k
    let speed := rs * 2.5
    ([{ x := x, y := y, vx := Real.cos angle * speed, vy := Real.sin angle * speed, alpha := 1,
        color := "#FFFFFF", decay := 0.09, useTrail := false, size := some 1.8 }], k)) 0 60 k1
  (petalsP ++ dust, k2)

/-- Violet burst (lines 393-411). -/
noncomputable def violetBurst (σ : RSrc) (x y : ℝ) (k : ℕ) : List Particle × ℕ :=
  genLoop (fun i k =>
    let t : ℝ := (i : ℝ) / 120
    let a := t * Real.pi * 2
    let (rj, k) := mathRandom σ k
    let angle := a + rj * 0.05
    let (speed, k) := random 5 7.5 σ k
    let (rc, k) := mathRandom σ k
    let color := if rc > 0.3 then "rgb(138, 43, 226)" else "rgb(180, 130, 255)"
    let (d, k) := random 0.05 0.07 σ k
    let p1 : Particle :=
      { x := x, y := y, vx := Real.cos angle * speed, vy := Real.sin angle * speed, alpha := 1,
        color := color, decay := d, useTrail := true, size := some 2, shimmer := true }
    if i % 3 = 0 then
      let coreSpeed := speed * 0.3
      ([p1,
        { x := x, y := y, vx := Real.cos angle * coreSpeed, vy := Real.sin angle * coreSpeed,
          alpha := 1, color := "rgb(230, 230, 255)", decay := 0.08, useTrail := false,
          size := some 2.5 }], k)
    else ([p1], k)) 0 120 k

/-- Strobe flower (lines 414-438). -/
noncomputable def strobeFlower (σ : RSrc) (x y : ℝ) (k : ℕ) : List Particle × ℕ :=
  let rayCount : ℕ := 40
  let (raysP, k1) := genLoop (fun i k =>
    let angle := (Real.pi * 2 * (i : ℝ)) / (rayCount : ℝ)
    let speed : ℝ := 7
    let p1 : Particle :=
      { x := x, y := y, vx := Real.cos angle * speed, vy := Real.sin angle * speed, alpha := 1,
        color := "rgb(255, 215, 0)", decay := 0.05, useTrail := true, size := some 1.8 }
    let (strobes, k) := genLoop (fun _ k =>
      let (rsv, k) := mathRandom σ k
      let sVar := speed * (0.9 + rsv * 0.2)
      let (rav, k) := mathRandom σ k
      let aVar := angle + (rav - 0.5) * 0.15
      let (d, k) := random 0.06 0.1 σ k
      ([{ x := x, y := y, vx := Real.cos aVar * sVar, vy := Real.sin aVar * sVar, alpha := 1,
          color := "rgb(255, 255, 240)", decay := d, useTrail := false, size := some 2.2,
          shimmer := true }], k)) 0 3 k
    (p1 :: strobes, k)) 0 rayCount k
  let (bluePins, k2) := genLoop (fun i k =>
    let angle := (Real.pi * 2 * (i : ℝ)) / 24
    let speed : ℝ := 3
    ([{ x := x, y := y, vx := Real.cos angle * speed, vy := Real.sin angle * speed, alpha := 1,
        color := "rgb(65, 105, 225)", decay := 0.06, useTrail := false,
        size := some 2.5 }], k)) 0 24 k1
  (raysP ++ bluePins, k2)

/-- Gold flower (lines 441-457). -/
noncomputable def goldFlower (σ : RSrc) (x y : ℝ) (k : ℕ) : List Particle × ℕ :=
  let (gold, k1) := genLoop (fun i k =>
    let (rja, k) := mathRandom σ k
    let angle := (Real.pi * 2 * (i : ℝ)) / 100 + rja * 0.1
    let (speed, k) := random 6 9 σ k
    let (d, k) := random 0.045 0.07 σ k
    ([{ x := x, y := y, vx := Real.cos angle * speed, vy := Real.sin angle * speed, alpha := 1,
        color := "#FFC107", decay := d, useTrail := true, size := some 2 }], k)) 0 100 k
  let (core, k2) := genLoop (fun i k =>
    let angle := (Real.pi * 2 * (i : ℝ)) / 50
    let speed : ℝ := 3.5
    let (rc, k) := mathRandom σ k
    let color := if rc > 0.5 then "#E0F7FA" else "#80DEEA"
    let (d, k) := random 0.06 0.09 σ k
    ([{ x := x, y := y, vx := Real.cos angle * speed, vy := Real.sin angle * speed, alpha := 1,
        color := color, decay := d, useTrail := false, size := some 2.5,
        shimmer := true }], k)) 0 50 k1
  (gold ++ core, k2)

/-- Galaxy (lines 460-477). -/
noncomputable def galaxyBurst (σ : RSrc) (x y : ℝ) (k : ℕ) : List Particle × ℕ :=
  let arms : ℕ := 3
  let (spiral, k1) := genLoop (fun i k =>
    let t : ℝ := (i : ℝ) / 80
    let speed := 1 + t * 5
    let angle := (t * Real.pi * 4) + ((i % arms : ℕ) : ℝ) * (Real.pi * 2 / (arms : ℝ))
    let color := if t < 0.3 then "255, 255, 255" else "0, 255, 255"
    let (d, k) := random 0.06 0.08 σ k
    ([{ x := x, y := y, vx := Real.cos angle * speed, vy := Real.sin angle * speed, alpha := 1,
        color := color, decay := d, useTrail := true, size := some 1.5 }], k)) 0 80 k
  let (halo, k2) := genLoop (fun i k =>
    let angle := (Real.pi * 2 * (i : ℝ)) / 60
    let (speed, k) := random 6 8 σ k
    let (d, k) := random 0.07 0.09 σ k
    ([{ x := x, y := y, vx := Real.cos angle * speed, vy := Real.sin angle * speed, alpha := 1,
        color := "138, 43, 226", decay := d, useTrail := false,
        size := some 2.2, shimmer := true }], k)) 0 60 k1
  (spiral ++ halo, k2)

/-- Heart (lines 480-492): classic parametric heart curve as initial
velocities. -/
noncomputable def heartBurst (σ : RSrc) (x y : ℝ) (k : ℕ) : List Particle × ℕ :=
  let color := NEON_COLORS.getD 0 "undefined"
  let count : ℕ := 60
  genLoop (fun i k =>
    let t := (Real.pi * 2 * (i : ℝ)) / (count : ℝ)
    let hx := 16 * (Real.sin t) ^ (3 : ℕ)
    let hy := -(13 * Real.cos t - 5 * Real.cos (2 * t) - 2 * Real.cos (3 * t) - Real.cos (4 * t))
    let (scale, k) := random 0.15 0.25 σ k
    let (d, k) := random 0.05 0.07 σ k
    ([{ x := x, y := y, vx := hx * scale, vy := hy * scale, alpha := 1, color := color,
        decay := d, useTrail := true, size := some 1.8, shimmer := true }], k)) 0 count k

/-- Ring (lines 495-505). -/
noncomputable def ringBurst (σ : RSrc) (x y : ℝ) (k : ℕ) : List Particle × ℕ :=
  let (rc, k1) := mathRandom σ k
  let color := pickColor ICE_COLORS rc
  let count : ℕ := 50
  genLoop (fun i k =>
    let angle := (Real.pi * 2 * (i : ℝ)) / (count : ℝ)
    let speed : ℝ := 4
    let (d, k) := random 0.05 0.07 σ k
    ([{ x := x, y := y, vx := Real.cos angle * speed, vy := Real.sin angle * speed, alpha := 1,
        color := color, decay := d, useTrail := false, size := some 2 }], k)) 0 count k1

/-- Glitter (lines 508-518). -/
noncomputable def glitterBurst (σ : RSrc) (x y : ℝ) (k : ℕ) : List Particle × ℕ :=
  let (rc, k1) := mathRandom σ k
  let color := if rc > 0.5 then "255, 255, 255" else "175, 238, 238"
  genLoop (fun _ k =>
    let (angle, k) := random 0 (Real.pi * 2) σ k
    let (speed, k) := random 1 6 σ k
    let (d, k) := random 0.08 0.12 σ k
    ([{ x := x, y := y, vx := Real.cos angle * speed, vy := Real.sin angle * speed, alpha := 1,
        color := color, decay := d, useTrail := false, size := some 1.5,
        shimmer := true }], k)) 0 100 k1

/-- Palm (lines 520-532): themed gold/blue/silver burst. -/
noncomputable def palmBurst (σ : RSrc) (x y : ℝ) (k : ℕ) : List Particle × ℕ :=
  let (rt, k1) := mathRandom σ k
  -- theme GOLD by default, BLUE when randTheme > 0.55, SILVER when > 0.15
  let baseColor := if rt > 0.55 then "65, 105, 225"
    else if rt > 0.15 then "192, 192, 192" else "255, 165, 0"
  let accentColor := if rt > 0.55 then "224, 255, 255"
    else if rt > 0.15 then "255, 250, 250" else "255, 215, 0"
  genLoop (fun _ k =>
    let (angle, k) := random 0 (Real.pi * 2) σ k
    let (speed, k) := random 4 9 σ k
    let (rc, k) := mathRandom σ k
    let color := if rc > 0.3 then baseColor else accentColor
    let (d, k) := random 0.06 0.08 σ k
    ([{ x := x, y := y, vx := Real.cos angle * speed, vy := Real.sin angle * speed, alpha := 1,
        color := color, decay := d, useTrail := true, size := some 2.8,
        shimmer := true }], k)) 0 80 k1

/-- Cosmic (lines 533-549). -/
noncomputable def cosmicBurst (σ : RSrc) (x y : ℝ) (k : ℕ) : List Particle × ℕ :=
  let rays : ℕ := 48
  let angleStep := Real.pi * 2 / (rays : ℝ)
  let raySpeed : ℝ := 6
  let (rr, k1) := mathRandom σ k
  let rayColor := pickColor COSMIC_RAY_COLORS rr
  let (rayP, k2) := genLoop (fun i k =>
    let angle := (i : ℝ) * angleStep
    ([{ x := x, y := y, vx := Real.cos angle * raySpeed, vy := Real.sin angle * raySpeed,
        alpha := 1, color := rayColor, decay := 0.07, useTrail := true, size := some 1.5,
        shimmer := true }], k)) 0 rays k1
  let (rcc, k3) := mathRandom σ k2
  let coreColor := pickColor NEON_COLORS rcc
  let (core, k4) := genLoop (fun _ k =>
    let (angle, k) := random 0 (Real.pi * 2) σ k
    let (speed, k) := random 0.5 2.5 σ k
    let (d, k) := random 0.07 0.09 σ k
    ([{ x := x, y := y, vx := Real.cos angle * speed, vy := Real.sin angle * speed, alpha := 1,
        color := coreColor, decay := d, useTrail := false, size := some 2 }], k)) 0 40 k3
  (rayP ++ core, k4)

/-- Streamer (lines 551-560). -/
noncomputable def streamerBurst (σ : RSrc) (x y : ℝ) (k : ℕ) : List Particle × ℕ :=
  let (rc, k1) := mathRandom σ k
  let color := pickColor STREAMER_COLORS rc
  genLoop (fun _ k =>
    let (angle, k) := random 0 (Real.pi * 2) σ k
    let (speed, k) := random 2 5 σ k
    let (d, k) := random 0.05 0.07 σ k
    ([{ x := x, y := y, vx := Real.cos angle * speed, vy := Real.sin angle * speed, alpha := 1,
        color := color, decay := d, useTrail := true, size := some 1.2,
        shimmer := true }], k)) 0 60 k1

/-- Default standard radial burst (lines 561-570): 60 particles, one color
drawn from the 6-color standard palette, randomized alpha in `[0.6, 1)`. -/
noncomputable def standardBurst (σ : RSrc) (x y : ℝ) (k : ℕ) : List Particle × ℕ :=
  let (rc, k1) := mathRandom σ k
  let color := pickColor STANDARD_COLORS rc
  genLoop (fun _ k =>
    let (angle, k) := random 0 (Real.pi * 2) σ k
    let (speed, k) := random 1 5 σ k
    let (alpha, k) := random 0.6 1 σ k
    let (d, k) := random 0.06 0.09 σ k
    ([{ x := x, y := y, vx := Real.cos angle * speed, vy := Real.sin angle * speed,
        alpha := alpha, color := color, decay := d, useTrail := false,
        size := some 2 }], k)) 0 60 k1

/-- `createExplosion` (lines 167-571): strict drone-display guard, then the
override-color burst, then the procedural pattern dispatch; every
unrecognized tag falls through to the standard burst. -/
noncomputable def createExplosion (σ : RSrc) (customShape : Option (List Point))
    (x y hue : ℝ) (type : String) (customColor : Option String) (k : ℕ) :
    List Particle × ℕ :=
  if type = "custom_shape" ∧ customShape.isSome = true ∧ 0 < (customShape.getD []).length then
    droneLoop σ x y (customShape.getD []) k
  else if customColor.isSome = true then
    customColorBurst σ x y (customColor.getD "") k
  else if type = "tree_burst" then treeBurst σ x y k
  else if type = "love_burst" then loveBurst σ x y k
  else if type = "neon_flower" then neonFlower σ x y k
  else if type = "cyan_flower" then cyanFlower σ x y k
  else if type = "floral_burst" then floralBurst σ x y k
  else if type = "violet_burst" then violetBurst σ x y k
  else if type = "strobe_flower" then strobeFlower σ x y k
  else if type = "gold_flower" then goldFlower σ x y k
  else if type = "galaxy" then galaxyBurst σ x y k
  else if type = "heart" then heartBurst σ x y k
  else if type = "ring" then ringBurst σ x y k
  else if type = "glitter" then glitterBurst σ x y k
  else if type = "palm" then palmBurst σ x y k
  else if type = "cosmic" then cosmicBurst σ x y k
  else if type = "streamer" then streamerBurst σ x y k
  else standardBurst σ x y k

/-! ## Projectile subsystem (animate, lines 621-684; launchFirework, lines 883-893) -/

/-- Engine constants (lines 69-70): gravity is zero ("suspended in space"),
particle friction is 0.95. -/
def GRAVITY : ℝ := 0

def FRICTION : ℝ := 0.95

/-- `Math.atan2(y, x)`: the angle of the vector `(x, y)` in `(-π, π]`. -/
noncomputable def atan2 (y x : ℝ) : ℝ :=
  if 0 < x then Real.arctan (y / x)
  else if x < 0 then
    (if 0 ≤ y then Real.arctan (y / x) + Real.pi else Real.arctan (y / x) - Real.pi)
  else
    (if 0 < y then Real.pi / 2 else if y < 0 then -(Real.pi / 2) else 0)

/-- `calculateDistance` (lines 805-807). -/
noncomputable def calculateDistance (x1 y1 x2 y2 : ℝ) : ℝ :=
  Real.sqrt ((x2 - x1) ^ 2 + (y2 - y1) ^ 2)

/-- `launchFirework` (lines 883-893); `r` is the `Math.random()` draw the
hue consumes. -/
noncomputable def launchFirework (sx sy tx ty : ℝ) (type : String) (r : ℝ) : Firework :=
  let angle := atan2 (ty - sy) (tx - sx)
  let distance := Real.sqrt ((tx - sx) ^ 2 + (ty - sy) ^ 2)
  { x := sx, y := sy, targetX := tx, targetY := ty,
    distanceToTarget := distance, distanceTraveled := 0,
    angle := angle, speed := 2, hue := (Int.floor (r * 360) : ℝ), brightness := 100,
    coordinates := List.replicate 3 { x := sx, y := sy }, coordinateCount := 3,
    exploded := false, type := type }

/-- One kinematic update of an in-flight projectile (lines 658-678): the
trail ring buffer drops its oldest entry and gains the current position;
the default regime accelerates speed by 1.015 with a fixed angle, the
override-color regime applies friction 0.96 plus a downward gravity bias
and re-derives angle and speed from the resulting vector; the position
advances by the velocity and `distanceTraveled` accumulates the step
length. -/
noncomputable def fwPhys (fw : Firework) : Firework :=
  let coords := { x := fw.x, y := fw.y } :: fw.coordinates.dropLast
  if fw.customColor.isSome = true then
    let speed1 := fw.speed * 0.96
    let gravityX : ℝ := 0
    let gravityY : ℝ := 0.15
    let vx0 := Real.cos fw.angle * speed1 + gravityX
    let vy0 := Real.sin fw.angle * speed1 + gravityY
    let angle1 := atan2 vy0 vx0
    let speed2 := Real.sqrt (vx0 * vx0 + vy0 * vy0)
    let vx := Real.cos angle1 * speed2
    let vy := Real.sin angle1 * speed2
    { fw with
      coordinates := coords
      angle := angle1
      speed := speed2
      distanceTraveled := calculateDistance fw.x fw.y (fw.x + vx) (fw.y + vy) + fw.distanceTraveled
      x := fw.x + vx
      y := fw.y + vy }
  else
    let speed1 := fw.speed * 1.015
    let vx := Real.cos fw.angle * speed1
    let vy := Real.sin fw.angle * speed1
    { fw with
      coordinates := coords
      speed := speed1
      distanceTraveled := calculateDistance fw.x fw.y (fw.x + vx) (fw.y + vy) + fw.distanceTraveled
      x := fw.x + vx
      y := fw.y + vy }

/-- The arrival/removal test of line 680:
`fw.distanceTraveled >= fw.distanceToTarget || (fw.customColor && fw.speed < 1.5)`. -/
noncomputable def arrivedB (fw : Firework) : Bool :=
  decide (fw.distanceToTarget ≤ fw.distanceTraveled) ||
    (fw.customColor.isSome && decide (fw.speed < 1.5))

/-- The projectile loop body over the processing order (the source iterates
the array from its last index down to 0): update, then on arrival call
`createExplosion` once and drop the projectile, else keep it. -/
noncomputable def fwLoop (σ : RSrc) (customShape : Option (List Point)) :
    List Firework → ℕ → List Firework × List Particle × ℕ
  | [], k => ([], [], k)
  | fw :: rest, k =>
    let fw1 := fwPhys fw
    if arrivedB fw1 then
      let (ps, k1) := createExplosion σ customShape fw1.x fw1.y fw1.hue fw1.type fw1.customColor k
      let (surv, parts, k2) := fwLoop σ customShape rest k1
      (surv, ps ++ parts, k2)
    else
      let (surv, parts, k1) := fwLoop σ customShape rest k
      (fw1 :: surv, parts, k1)

/-- One frame of the projectile subsystem: the source loop runs from the
last index to the first and splices in place, so the surviving entries keep
their original relative order; the fold therefore runs over the reversed
list and its survivors are reversed back. -/
noncomputable def stepFireworks (σ : RSrc) (customShape : Option (List Point))
    (fws : List Firework) (k : ℕ) : List Firework × List Particle × ℕ :=
  let (survRev, parts, k1) := fwLoop σ customShape fws.reverse k
  (survRev.reverse, parts, k1)

/-- Sequential explosion calls for a list of (already updated) arrived
projectiles, threading the random cursor. -/
noncomputable def runExplosions (σ : RSrc) (customShape : Option (List Point)) :
    List Firework → ℕ → List Particle × ℕ
  | [], k => ([], k)
  | fw :: rest, k =>
    let (ps, k1) := createExplosion σ customShape fw.x fw.y fw.hue fw.type fw.customColor k
    let (qs, k2) := runExplosions σ customShape rest k1
    (ps ++ qs, k2)

/-! ## Particle subsystem (animate, lines 687-711) -/

/-- One physics update of a particle (lines 690-708): friction, gravity,
position, decay subtraction, then — for shimmer particles — a 15%-per-frame
chance of overriding alpha upward to a random value in `[0.6, 1)`, then
trail accumulation with a size-dependent cap. -/
noncomputable def pPhys (σ : RSrc) (p : Particle) (k : ℕ) : Particle × ℕ :=
  let vx := p.vx * FRICTION
  let vy := p.vy * FRICTION + GRAVITY
  let x := p.x + vx
  let y := p.y + vy
  let alphaDec := p.alpha - p.decay
  let (alpha1, k1) :=
    if p.shimmer then
      if σ k > 0.85 then (σ (k + 1) * 0.4 + 0.6, k + 2) else (alphaDec, k + 1)
    else (alphaDec, k)
  let trail1 :=
    if p.useTrail then
      let t0 := p.trail ++ [{ x := x, y := y }]
      -- `p.size && p.size > 2 ? 15 : 8` (an absent or zero size is falsy,
      -- and `0 > 2` is false anyway, so both give 8)
      let maxTrail : ℕ := match p.size with
        | some s => if s > 2 then 15 else 8
        | none => 8
      if maxTrail < t0.length then t0.drop 1 else t0
    else p.trail
  ({ p with
      x := x
      y := y
      vx := vx
      vy := vy
      alpha := alpha1
      trail := trail1 }, k1)

/-- The particle update with the shimmer branch closed off: what `pPhys`
does to a particle whose shimmer flag is false (no random consumption). -/
noncomputable def pPhysDet (p : Particle) : Particle :=
  let vx := p.vx * FRICTION
  let vy := p.vy * FRICTION + GRAVITY
  let x := p.x + vx
  let y := p.y + vy
  let alpha1 := p.alpha - p.decay
  let trail1 :=
    if p.useTrail then
      let t0 := p.trail ++ [{ x := x, y := y }]
      let maxTrail : ℕ := match p.size with
        | some s => if s > 2 then 15 else 8
        | none => 8
      if maxTrail < t0.length then t0.drop 1 else t0
    else p.trail
  { p with
    x := x
    y := y
    vx := vx
    vy := vy
    alpha := alpha1
    trail := trail1 }

/-- The particle loop body over the processing order: update, then remove
the particle exactly when its alpha has dropped to zero or below
(line 710). -/
noncomputable def pLoop (σ : RSrc) : List Particle → ℕ → List Particle × ℕ
  | [], k => ([], k)
  | p :: rest, k =>
    let (p1, k1) := pPhys σ p k
    if p1.alpha ≤ 0 then
      let (surv, k2) := pLoop σ rest k1
      (surv, k2)
    else
      let (surv, k2) := pLoop σ rest k1
      (p1 :: surv, k2)

/-- One frame of the particle subsystem (reverse iteration order, survivors
keep their relative order). -/
noncomputable def stepParticles (σ : RSrc) (ps : List Particle) (k : ℕ) :
    List Particle × ℕ :=
  let (survRev, k1) := pLoop σ ps.reverse k
  (survRev.reverse, k1)

/-! ## One animation frame over the simulation state

The frame loop (lines 580-803) also repaints stars and hand-drawn strokes
and — when enabled — performs auto-fire; those touch only the canvas, the
star field and the launch of additional projectiles, and the embedded frame
models the cited projectile and particle passes with auto-fire disabled (as
in the end-to-end scenarios). New explosion particles are pushed onto the
end of the particle array during the projectile pass, so the same frame's
particle pass already processes them. -/

structure SimState where
  fireworks : List Firework
  particles : List Particle

noncomputable def frameStep (σ : RSrc) (customShape : Option (List Point))
    (s : SimState) (k : ℕ) : SimState × ℕ :=
  let (fws, newParts, k1) := stepFireworks σ customShape s.fireworks k
  let (parts, k2) := stepParticles σ (s.particles ++ newParts) k1
  ({ fireworks := fws, particles := parts }, k2)

/-- `n` animation frames. -/
noncomputable def frameIter (σ : RSrc) (customShape : Option (List Point)) :
    ℕ → SimState → ℕ → SimState × ℕ
  | 0, s, k => (s, k)
  | n + 1, s, k =>
    let (s1, k1) := frameIter σ customShape n s k
    frameStep σ customShape s1 k1

/-! ## Finale sequence (`triggerFinale`, lines 97-130) -/

/-- The 7-band hue ramp keyed by `t = i / rayCount` (lines 111-118). -/
noncomputable def finaleColor (t : ℝ) : String :=
  if t < 0.15 then "hsl(200, 100%, 60%)"
  else if t < 0.3 then "hsl(170, 100%, 50%)"
  else if t < 0.45 then "hsl(120, 100%, 60%)"
  else if t < 0.6 then "hsl(60, 100%, 60%)"
  else if t < 0.75 then "hsl(0, 100%, 65%)"
  else if t < 0.9 then "hsl(300, 100%, 60%)"
  else "hsl(270, 100%, 65%)"

/-- The projectile the finale pushes for fan index `i` (`r` is the
`Math.random()` draw its velocity consumes). -/
noncomputable def mkFinaleFw (w h : ℝ) (i : ℕ) (r : ℝ) : Firework :=
  let rayCount : ℕ := 60
  let angleStart := -(Real.pi * 0.9)
  let angleEnd := -(Real.pi * 0.1)
  let angleStep := (angleEnd - angleStart) / (rayCount : ℝ)
  let angle := angleStart + (i : ℝ) * angleStep
  let t : ℝ := (i : ℝ) / (rayCount : ℝ)
  let color := finaleColor t
  let velocity := 8 + r * 3
  { x := w / 2, y := h,
    targetX := w / 2 + Real.cos angle * h * 0.8, targetY := h + Real.sin angle * h * 0.8,
    distanceToTarget := h * 0.8, distanceTraveled := 0,
    angle := angle, speed := velocity, hue := 0, brightness := 100,
    coordinates := List.replicate 5 { x := w / 2, y := h }, coordinateCount := 5,
    exploded := false, type := "streamer", customColor := some color, trailWidth := some 3 }

noncomputable def finaleAux (σ : RSrc) (w h : ℝ) : ℕ → ℕ → ℕ → List Firework × ℕ
  | _, 0, k => ([], k)
  | i, n + 1, k =>
    let (r, k1) := mathRandom σ k
    let fw := mkFinaleFw w h i r
    let (rest, k2) := finaleAux σ w h (i + 1) n k1
    (fw :: rest, k2)

/-- `triggerFinale` (lines 97-130): the list of 60 projectiles the rainbow
fan pushes onto the live set, for viewport dimensions `w × h`. -/
noncomputable def triggerFinale (σ : RSrc) (w h : ℝ) (k : ℕ) : List Firework × ℕ :=
  finaleAux σ w h 0 60 k

/-- The seven finale band colors in ramp order
(blue, cyan, green, yellow, red, magenta, violet). -/
def FINALE_COLORS : List String :=
  ["hsl(200, 100%, 60%)", "hsl(170, 100%, 50%)", "hsl(120, 100%, 60%)", "hsl(60, 100%, 60%)",
   "hsl(0, 100%, 65%)", "hsl(300, 100%, 60%)", "hsl(270, 100%, 65%)"]

/-- Which of the 7 hue bands fan index `i` falls in (the thresholds
`t < 0.15, 0.3, ...` at `t = i / 60` are exactly `i < 9, 18, ...`). -/
def finaleBand (i : ℕ) : ℕ :=
  if i < 9 then 0 else if i < 18 then 1 else if i < 27 then 2 else if i < 36 then 3
  else if i < 45 then 4 else if i < 54 then 5 else 6

/-! ## Renderer color computation (lines 722 and 757) -/

/-- The prefix test `str.startsWith(pre)` of the renderer, implemented over
the character list so concrete instances evaluate. -/
def strBeginsWith (s pre : String) : Bool := List.isPrefixOf pre.data s.data

/-- The per-particle fill/stroke style the renderer computes, identically at
the trail stroke (line 722) and the dot fill (line 757):
pass `hsl...`-prefixed and `rgb...`-prefixed colors through unchanged, wrap
everything else as an `rgba(color, alpha)` string.  `alphaText` stands for
the decimal rendering of `p.alpha` that the template literal interpolates. -/
def particleStyle (color : String) (alphaText : String) : String :=
  if strBeginsWith color "hsl" then color
  else if strBeginsWith color "rgb" then color
  else "rgba(" ++ color ++ ", " ++ alphaText ++ ")"

/-! ## C1: projectile frame invariant -/

theorem calculateDistance_nonneg (x1 y1 x2 y2 : ℝ) : 0 ≤ calculateDistance x1 y1 x2 y2 :=
  Real.sqrt_nonneg _

/-- One kinematic update never decreases `distanceTraveled`: the step adds
the (nonnegative) step length. -/
theorem fwPhys_mono (fw : Firework) : fw.distanceTraveled ≤ (fwPhys fw).distanceTraveled := by
  unfold fwPhys
  split
  · exact le_add_of_nonneg_left (calculateDistance_nonneg _ _ _ _)
  · exact le_add_of_nonneg_left (calculateDistance_nonneg _ _ _ _)

theorem arrivedB_iff (fw : Firework) :
    arrivedB fw = true ↔
      fw.distanceToTarget ≤ fw.distanceTraveled ∨
        (fw.customColor.isSome = true ∧ fw.speed < 1.5) := by
  simp [arrivedB]

theorem fwLoop_surv (σ : RSrc) (shape : Option (List Point)) :
    ∀ (l : List Firework) (k : ℕ),
      (fwLoop σ shape l k).1 = (l.map fwPhys).filter (fun f => !arrivedB f)
  | [], _ => rfl
  | fw :: rest, k => by
    cases hA : arrivedB (fwPhys fw) with
    | true =>
      rcases hE : createExplosion σ shape (fwPhys fw).x (fwPhys fw).y (fwPhys fw).hue
        (fwPhys fw).type (fwPhys fw).customColor k with ⟨ps, k1⟩
      have ih := fwLoop_surv σ shape rest k1
      rcases hR : fwLoop σ shape rest k1 with ⟨surv, parts, k2⟩
      rw [hR] at ih
      simp only [fwLoop, hA, hE, hR, List.map_cons, List.filter_cons, Bool.not_true,
        if_true, Bool.false_eq_true, if_false]
      exact ih
    | false =>
      have ih := fwLoop_surv σ shape rest k
      rcases hR : fwLoop σ shape rest k with ⟨surv, parts, k2⟩
      rw [hR] at ih
      simp only [fwLoop, hA, hR, List.map_cons, List.filter_cons, Bool.not_false,
        Bool.false_eq_true, if_false, if_true]
      exact congrArg _ ih

theorem fwLoop_parts (σ : RSrc) (shape : Option (List Point)) :
    ∀ (l : List Firework) (k : ℕ),
      (fwLoop σ shape l k).2.1 =
        (runExplosions σ shape ((l.map fwPhys).filter (fun f => arrivedB f)) k).1
  | [], _ => rfl
  | fw :: rest, k => by
    cases hA : arrivedB (fwPhys fw) with
    | true =>
      rcases hE : createExplosion σ shape (fwPhys fw).x (fwPhys fw).y (fwPhys fw).hue
        (fwPhys fw).type (fwPhys fw).customColor k with ⟨ps, k1⟩
      have ih := fwLoop_parts σ shape rest k1
      rcases hR : fwLoop σ shape rest k1 with ⟨surv, parts, k2⟩
      rw [hR] at ih
      simp only [fwLoop, hA, hE, hR, List.map_cons, List.filter_cons, if_true,
        runExplosions, Bool.false_eq_true, if_false]
      exact congrArg _ ih
    | false =>
      have ih := fwLoop_parts σ shape rest k
      rcases hR : fwLoop σ shape rest k with ⟨surv, parts, k2⟩
      rw [hR] at ih
      simp only [fwLoop, hA, hR, List.map_cons, List.filter_cons, Bool.false_eq_true,
        if_false, if_true]
      exact ih

theorem stepFireworks_surv (σ : RSrc) (shape : Option (List Point))
    (fws : List Firework) (k : ℕ) :
    (stepFireworks σ shape fws k).1 = (fws.map fwPhys).filter (fun f => !arrivedB f) := by
  have h := fwLoop_surv σ shape fws.reverse k
  rcases hL : fwLoop σ shape fws.reverse k with ⟨survRev, parts, k1⟩
  rw [hL] at h
  dsimp only at h
  simp only [stepFireworks, hL]
  rw [h, List.map_reverse, List.filter_reverse, List.reverse_reverse]

theorem stepFireworks_parts (σ : RSrc) (shape : Option (List Point))
    (fws : List Firework) (k : ℕ) :
    (stepFireworks σ shape fws k).2.1 =
      (runExplosions σ shape (((fws.map fwPhys).filter (fun f => arrivedB f)).reverse) k).1 := by
  have h := fwLoop_parts σ shape fws.reverse k
  rcases hL : fwLoop σ shape fws.reverse k with ⟨survRev, parts, k1⟩
  rw [hL] at h
  dsimp only at h
  simp only [stepFireworks, hL]
  rw [h, List.map_reverse, List.filter_reverse]

/-- C1: within one frame of the projectile pass, `distanceTraveled` never
decreases; the surviving live set is exactly the updated projectiles whose
removal test is false (so a projectile is removed exactly at the first frame
the test holds); and the particle batches created in that frame are exactly
one `createExplosion` call per removed projectile, in processing order —
removal and explosion happen in the same frame step.  The removal test is
`distanceTraveled >= distanceToTarget`, or speed below the floor 1.5 for
projectiles carrying an override color. -/
theorem projectile_frame_invariant (σ : RSrc) (shape : Option (List Point))
    (fws : List Firework) (k : ℕ) :
    (∀ fw ∈ fws, fw.distanceTraveled ≤ (fwPhys fw).distanceTraveled) ∧
    (stepFireworks σ shape fws k).1 = (fws.map fwPhys).filter (fun f => !arrivedB f) ∧
    (stepFireworks σ shape fws k).2.1 =
      (runExplosions σ shape (((fws.map fwPhys).filter (fun f => arrivedB f)).reverse) k).1 ∧
    (∀ fw : Firework, arrivedB fw = true ↔
      fw.distanceToTarget ≤ fw.distanceTraveled ∨
        (fw.customColor.isSome = true ∧ fw.speed < 1.5)) :=
  ⟨fun fw _ => fwPhys_mono fw, stepFireworks_surv σ shape fws k,
    stepFireworks_parts σ shape fws k, arrivedB_iff⟩

/-! ## C2: particle alpha decay, removal and shimmer override -/

theorem pPhys_nonshimmer (σ : RSrc) (p : Particle) (k : ℕ) (h : p.shimmer = false) :
    pPhys σ p k = (pPhysDet p, k) := by
  simp [pPhys, pPhysDet, h]

theorem pPhysDet_alpha (p : Particle) : (pPhysDet p).alpha = p.alpha - p.decay := rfl

theorem pPhysDet_decay (p : Particle) : (pPhysDet p).decay = p.decay := rfl

theorem pPhysDet_shimmer (p : Particle) : (pPhysDet p).shimmer = p.shimmer := rfl

theorem pPhysDet_iter_decay (p : Particle) : ∀ N, (pPhysDet^[N] p).decay = p.decay
  | 0 => rfl
  | N + 1 => by
    rw [Function.iterate_succ_apply', pPhysDet_decay, pPhysDet_iter_decay p N]

/-- Linear alpha decay: after `N` non-shimmer frames the alpha is exactly
the initial alpha minus `N` times the decay rate. -/
theorem pPhysDet_iter_alpha (p : Particle) : ∀ N, (pPhysDet^[N] p).alpha = p.alpha - N * p.decay
  | 0 => by simp
  | N + 1 => by
    rw [Function.iterate_succ_apply', pPhysDet_alpha, pPhysDet_iter_alpha p N,
      pPhysDet_iter_decay p N]
    push_cast
    ring

theorem pLoop_nonshimmer (σ : RSrc) :
    ∀ (l : List Particle) (k : ℕ), (∀ q ∈ l, q.shimmer = false) →
      pLoop σ l k = ((l.map pPhysDet).filter (fun q => !decide (q.alpha ≤ 0)), k)
  | [], k, _ => rfl
  | p :: rest, k, h => by
    have hp : p.shimmer = false := h p (List.mem_cons_self _ _)
    have hrest := pLoop_nonshimmer σ rest k (fun q hq => h q (List.mem_cons_of_mem _ hq))
    by_cases hα : (pPhysDet p).alpha ≤ 0
    · simp [pLoop, pPhys_nonshimmer σ p k hp, hα, hrest]
    · simp [pLoop, pPhys_nonshimmer σ p k hp, hα, hrest]

theorem stepParticles_nonshimmer (σ : RSrc) (ps : List Particle) (k : ℕ)
    (h : ∀ q ∈ ps, q.shimmer = false) :
    stepParticles σ ps k = ((ps.map pPhysDet).filter (fun q => !decide (q.alpha ≤ 0)), k) := by
  have hh : ∀ q ∈ ps.reverse, q.shimmer = false := fun q hq => h q (List.mem_reverse.1 hq)
  simp only [stepParticles, pLoop_nonshimmer σ ps.reverse k hh]
  rw [List.map_reverse, List.filter_reverse, List.reverse_reverse]

theorem pPhys_shimmer_override (σ : RSrc) (p : Particle) (k : ℕ)
    (hs : p.shimmer = true) (hr : 0.85 < σ k) :
    (pPhys σ p k).1.alpha = σ (k + 1) * 0.4 + 0.6 := by
  simp [pPhys, hs, hr]

/-- C2: without the shimmer flag, alpha after `N` frames is exactly
`initialAlpha - N * decay`, and a frame of the particle pass keeps exactly
the updated particles with positive alpha (so a particle is removed at the
first frame its alpha is `≤ 0`); with the shimmer flag, when the per-frame
draw exceeds 0.85 (probability 0.15) the re-brightening runs after the decay
subtraction and replaces the decayed value by `draw * 0.4 + 0.6 ∈ [0.6, 1)`,
which is positive — so a shimmered particle survives that frame regardless
of its decay budget. -/
theorem particle_decay_shimmer_spec (σ : RSrc) (p : Particle) (N k : ℕ) (ps : List Particle) :
    (p.shimmer = false → pPhys σ p k = (pPhysDet p, k)) ∧
    (p.shimmer = false → (pPhysDet^[N] p).alpha = p.alpha - N * p.decay) ∧
    ((∀ q ∈ ps, q.shimmer = false) →
      stepParticles σ ps k = ((ps.map pPhysDet).filter (fun q => !decide (q.alpha ≤ 0)), k)) ∧
    (p.shimmer = true → 0.85 < σ k →
      (pPhys σ p k).1.alpha = σ (k + 1) * 0.4 + 0.6 ∧
      (0 ≤ σ (k + 1) → 0.6 ≤ (pPhys σ p k).1.alpha) ∧
      (σ (k + 1) < 1 → (pPhys σ p k).1.alpha < 1)) := by
  refine ⟨fun h => pPhys_nonshimmer σ p k h, fun _ => pPhysDet_iter_alpha p N,
    fun h => stepParticles_nonshimmer σ ps k h, fun hs hr => ⟨?_, ?_, ?_⟩⟩
  · exact pPhys_shimmer_override σ p k hs hr
  · intro h0
    rw [pPhys_shimmer_override σ p k hs hr]
    nlinarith
  · intro h1
    rw [pPhys_shimmer_override σ p k hs hr]
    nlinarith

/-- A concrete plain particle: alpha 1, decay 0.2, no shimmer. -/
noncomputable def plainParticle : Particle :=
  { x := 0, y := 0, vx := 0, vy := 0, alpha := 1, color := "255, 182, 193", decay := 0.2 }

/-- A concrete shimmer particle: alpha 1, decay 0.05, shimmer set. -/
noncomputable def shimmerParticle : Particle :=
  { x := 0, y := 0, vx := 0, vy := 0, alpha := 1, color := "#00FFFF", decay := 0.05,
    shimmer := true }

/-- The C2 property at a concrete particle (three frames of decay) and a
concrete shimmer override (draw 0.9 at the check, 0.5 at the
re-brightening). -/
theorem particle_decay_shimmer_spec_witness :
    plainParticle.shimmer = false ∧
    (pPhysDet^[3] plainParticle).alpha = 0.4 ∧
    shimmerParticle.shimmer = true ∧
    (0.85 : ℝ) < 0.9 ∧
    (pPhys (fun n => if n = 0 then 0.9 else 0.5) shimmerParticle 0).1.alpha = 0.8 := by
  refine ⟨rfl, ?_, rfl, by norm_num, ?_⟩
  · have h := (particle_decay_shimmer_spec (fun _ => 0) plainParticle 3 0 []).2.1 rfl
    rw [h]
    show (1 : ℝ) - 3 * 0.2 = 0.4
    norm_num
  · have h := (particle_decay_shimmer_spec (fun n => if n = 0 then 0.9 else 0.5)
      shimmerParticle 0 0 []).2.2.2 rfl (by norm_num)
    rw [h.1]
    norm_num

/-! ## Generic loop and palette-pick lemmas -/

theorem genLoop_length (body : ℕ → ℕ → List Particle × ℕ)
    (hb : ∀ j k, ((body j k).1).length = 1) :
    ∀ (i n k : ℕ), ((genLoop body i n k).1).length = n
  | _, 0, _ => rfl
  | i, n + 1, k => by
    rcases hB : body i k with ⟨ps, k1⟩
    rcases hR : genLoop body (i + 1) n k1 with ⟨rest, k2⟩
    have ih := genLoop_length body hb (i + 1) n k1
    rw [hR] at ih
    have hb1 := hb i k
    rw [hB] at hb1
    simp only [genLoop, hB, hR, List.length_append]
    dsimp only at ih hb1
    omega

theorem genLoop_mem (body : ℕ → ℕ → List Particle × ℕ) (Q : Particle → Prop)
    (hb : ∀ j k, ∀ p ∈ (body j k).1, Q p) :
    ∀ (i n k : ℕ), ∀ p ∈ (genLoop body i n k).1, Q p
  | _, 0, _, p, hp => absurd hp (List.not_mem_nil p)
  | i, n + 1, k, p, hp => by
    rcases hB : body i k with ⟨ps, k1⟩
    rcases hR : genLoop body (i + 1) n k1 with ⟨rest, k2⟩
    have ih := genLoop_mem body Q hb (i + 1) n k1
    rw [hR] at ih
    simp only [genLoop, hB, hR, List.mem_append] at hp
    rcases hp with hp | hp
    · have hb1 := hb i k
      rw [hB] at hb1
      exact hb1 p hp
    · exact ih p hp

theorem pickColor_mem (l : List String) (r : ℝ) (hl : l ≠ []) (h0 : 0 ≤ r) (h1 : r < 1) :
    pickColor l r ∈ l := by
  unfold pickColor
  have hlen : 0 < l.length := List.length_pos.2 hl
  have hlenR : (0 : ℝ) < (l.length : ℝ) := by exact_mod_cast hlen
  have hfl : Int.floor (r * (l.length : ℝ)) < (l.length : ℤ) := by
    apply Int.floor_lt.2
    push_cast
    calc r * (l.length : ℝ) < 1 * (l.length : ℝ) := by
          exact mul_lt_mul_of_pos_right h1 hlenR
      _ = (l.length : ℝ) := one_mul _
  have hnn : (0 : ℤ) ≤ Int.floor (r * (l.length : ℝ)) :=
    Int.floor_nonneg.2 (mul_nonneg h0 (le_of_lt hlenR))
  have hlt : (Int.floor (r * (l.length : ℝ))).toNat < l.length := by omega
  rw [List.getD_eq_getElem?_getD, List.getElem?_eq_getElem hlt, Option.getD_some]
  exact List.getElem_mem hlt

/-! ## The standard burst: shape of its output -/

theorem standardBurst_length (σ : RSrc) (x y : ℝ) (k : ℕ) :
    ((standardBurst σ x y k).1).length = 60 := by
  unfold standardBurst
  simp only [mathRandom]
  apply genLoop_length
  intro j k'
  rfl

theorem standardBurst_mem (σ : RSrc) (x y : ℝ) (k : ℕ) (hσ : streamFrac σ) :
    ∀ p ∈ (standardBurst σ x y k).1,
      p.color ∈ STANDARD_COLORS ∧ 0.6 ≤ p.alpha ∧ p.alpha < 1 ∧
        0.06 ≤ p.decay ∧ p.decay < 0.09 ∧ p.shimmer = false ∧ p.useTrail = false := by
  unfold standardBurst
  apply genLoop_mem
  intro j k' p hp
  simp only [mathRandom, random, List.mem_singleton] at hp
  subst hp
  have hc : pickColor STANDARD_COLORS (σ k) ∈ STANDARD_COLORS :=
    pickColor_mem _ _ (by decide) (hσ k).1 (hσ k).2
  have ha := hσ (k' + 2)
  have hd := hσ (k' + 3)
  refine ⟨hc, by nlinarith [ha.1, ha.2], by nlinarith [ha.1, ha.2],
    by nlinarith [hd.1, hd.2], by nlinarith [hd.1, hd.2], rfl, rfl⟩

/-! ## C9 and C10: explosion dispatch fall-through -/

theorem createExplosion_fallthrough (σ : RSrc) (shape : Option (List Point)) (x y hue : ℝ)
    (type : String) (k : ℕ) (h : type ∉ "custom_shape" :: FIREWORK_TYPES) :
    createExplosion σ shape x y hue type none k = standardBurst σ x y k := by
  have h0 : type ≠ "custom_shape" := fun e => h (e ▸ List.mem_cons_self _ _)
  have hni : ∀ t, t ∈ FIREWORK_TYPES → type ≠ t :=
    fun t ht e => h (e ▸ List.mem_cons_of_mem _ ht)
  unfold createExplosion
  rw [if_neg (fun hc => h0 hc.1), if_neg (by simp),
    if_neg (hni "tree_burst" (by decide)), if_neg (hni "love_burst" (by decide)),
    if_neg (hni "neon_flower" (by decide)), if_neg (hni "cyan_flower" (by decide)),
    if_neg (hni "floral_burst" (by decide)), if_neg (hni "violet_burst" (by decide)),
    if_neg (hni "strobe_flower" (by decide)), if_neg (hni "gold_flower" (by decide)),
    if_neg (hni "galaxy" (by decide)), if_neg (hni "heart" (by decide)),
    if_neg (hni "ring" (by decide)), if_neg (hni "glitter" (by decide)),
    if_neg (hni "palm" (by decide)), if_neg (hni "cosmic" (by decide)),
    if_neg (hni "streamer" (by decide))]

/-- C9: any pattern tag outside the recognized generator tags (the sixteen
`FIREWORK_TYPES` and the drone tag) makes `createExplosion` produce exactly
the default standard radial burst — 60 particles, one standard-palette
color, alpha in `[0.6, 1)` — never nothing. -/
theorem createExplosion_unknown_tag (σ : RSrc) (shape : Option (List Point)) (x y hue : ℝ)
    (type : String) (k : ℕ) (hσ : streamFrac σ)
    (h : type ∉ "custom_shape" :: FIREWORK_TYPES) :
    createExplosion σ shape x y hue type none k = standardBurst σ x y k ∧
    ((createExplosion σ shape x y hue type none k).1).length = 60 ∧
    ∀ p ∈ (createExplosion σ shape x y hue type none k).1,
      p.color ∈ STANDARD_COLORS ∧ 0.6 ≤ p.alpha ∧ p.alpha < 1 := by
  have he := createExplosion_fallthrough σ shape x y hue type k h
  refine ⟨he, ?_, ?_⟩
  · rw [he]
    exact standardBurst_length σ x y k
  · rw [he]
    intro p hp
    have := standardBurst_mem σ x y k hσ p hp
    exact ⟨this.1, this.2.1, this.2.2.1⟩

/-- C9 at the concrete unrecognized tag "comet". -/
theorem createExplosion_unknown_tag_witness :
    streamFrac (fun _ => 0) ∧ ("comet" ∉ "custom_shape" :: FIREWORK_TYPES) ∧
    (createExplosion (fun _ => 0) none 100 200 0 "comet" none 0 =
        standardBurst (fun _ => 0) 100 200 0 ∧
      ((createExplosion (fun _ => 0) none 100 200 0 "comet" none 0).1).length = 60 ∧
      ∀ p ∈ (createExplosion (fun _ => 0) none 100 200 0 "comet" none 0).1,
        p.color ∈ STANDARD_COLORS ∧ 0.6 ≤ p.alpha ∧ p.alpha < 1) :=
  ⟨fun _ => ⟨le_refl 0, by norm_num⟩, by decide,
    createExplosion_unknown_tag (fun _ => 0) none 100 200 0 "comet" 0
      (fun _ => ⟨le_refl 0, by norm_num⟩) (by decide)⟩

/-- C10: a drone-display request whose stored custom shape is null or empty
fails the strict guard and falls through to the default standard radial
burst of 60 particles — it produces neither a drone formation nor zero
particles.  (`customColor` is absent, as at the drone call site.) -/
theorem createExplosion_drone_empty_shape (σ : RSrc) (shape : Option (List Point))
    (x y hue : ℝ) (k : ℕ) (h : shape = none ∨ shape = some []) :
    createExplosion σ shape x y hue "custom_shape" none k = standardBurst σ x y k ∧
    ((createExplosion σ shape x y hue "custom_shape" none k).1).length = 60 := by
  have hguard : ¬("custom_shape" = "custom_shape" ∧ shape.isSome = true ∧
      0 < (shape.getD []).length) := by
    rcases h with rfl | rfl
    · simp
    · simp
  have he : createExplosion σ shape x y hue "custom_shape" none k = standardBurst σ x y k := by
    unfold createExplosion
    rw [if_neg hguard, if_neg (by simp),
      if_neg (by decide : ¬("custom_shape" = "tree_burst")),
      if_neg (by decide : ¬("custom_shape" = "love_burst")),
      if_neg (by decide : ¬("custom_shape" = "neon_flower")),
      if_neg (by decide : ¬("custom_shape" = "cyan_flower")),
      if_neg (by decide : ¬("custom_shape" = "floral_burst")),
      if_neg (by decide : ¬("custom_shape" = "violet_burst")),
      if_neg (by decide : ¬("custom_shape" = "strobe_flower")),
      if_neg (by decide : ¬("custom_shape" = "gold_flower")),
      if_neg (by decide : ¬("custom_shape" = "galaxy")),
      if_neg (by decide : ¬("custom_shape" = "heart")),
      if_neg (by decide : ¬("custom_shape" = "ring")),
      if_neg (by decide : ¬("custom_shape" = "glitter")),
      if_neg (by decide : ¬("custom_shape" = "palm")),
      if_neg (by decide : ¬("custom_shape" = "cosmic")),
      if_neg (by decide : ¬("custom_shape" = "streamer"))]
  refine ⟨he, ?_⟩
  rw [he]
  exact standardBurst_length σ x y k

/-- C10 at the concrete null shape. -/
theorem createExplosion_drone_empty_shape_witness :
    ((none : Option (List Point)) = none ∨ (none : Option (List Point)) = some []) ∧
    (createExplosion (fun _ => 0) none 100 200 0 "custom_shape" none 0 =
        standardBurst (fun _ => 0) 100 200 0 ∧
      ((createExplosion (fun _ => 0) none 100 200 0 "custom_shape" none 0).1).length = 60) :=
  ⟨Or.inl rfl,
    createExplosion_drone_empty_shape (fun _ => 0) none 100 200 0 0 (Or.inl rfl)⟩

/-! ## C8: the renderer's fill/stroke color computation -/

/-- The claim says hex color strings are "treated as already-opaque"
(passed through like the `hsl(...)`/`rgb(...)` forms) and yield a valid
color; but a hex string matches neither prefix test, so the renderer wraps
it — hex and all — inside `rgba(color, alpha)`, which is not the
passthrough the claim describes (and not a well-formed color). -/
theorem particleStyle_hex_counterexample :
    particleStyle "#00FFFF" "0.5" = "rgba(#00FFFF, 0.5)" ∧
    particleStyle "#00FFFF" "0.5" ≠ "#00FFFF" := by
  constructor
  · decide
  · decide

/-- C8 (amended): the computation passes `hsl`-prefixed and `rgb`-prefixed
color strings through unchanged (already-opaque), and wraps every other
color string — comma triplets, but also hex strings — as
`rgba(color, alpha)`, which applies the particle's alpha exactly and is a
valid color only for the comma-triplet form. -/
theorem particleStyle_spec (c a : String) :
    (strBeginsWith c "hsl" = true → particleStyle c a = c) ∧
    (strBeginsWith c "hsl" = false → strBeginsWith c "rgb" = true → particleStyle c a = c) ∧
    (strBeginsWith c "hsl" = false → strBeginsWith c "rgb" = false →
      particleStyle c a = "rgba(" ++ c ++ ", " ++ a ++ ")") := by
  refine ⟨fun h => by simp [particleStyle, h],
    fun h1 h2 => by simp [particleStyle, h1, h2],
    fun h1 h2 => by simp [particleStyle, h1, h2]⟩

/-- C8 at the three concrete color forms that appear in the engine. -/
theorem particleStyle_spec_witness :
    (strBeginsWith "hsl(200, 100%, 60%)" "hsl" = true ∧
      particleStyle "hsl(200, 100%, 60%)" "0.5" = "hsl(200, 100%, 60%)") ∧
    (strBeginsWith "rgb(0, 255, 255)" "hsl" = false ∧
      strBeginsWith "rgb(0, 255, 255)" "rgb" = true ∧
      particleStyle "rgb(0, 255, 255)" "0.5" = "rgb(0, 255, 255)") ∧
    (strBeginsWith "255, 182, 193" "hsl" = false ∧
      strBeginsWith "255, 182, 193" "rgb" = false ∧
      particleStyle "255, 182, 193" "0.5" = "rgba(255, 182, 193, 0.5)") :=
  ⟨⟨by decide, (particleStyle_spec "hsl(200, 100%, 60%)" "0.5").1 (by decide)⟩,
    ⟨by decide, by decide,
      (particleStyle_spec "rgb(0, 255, 255)" "0.5").2.1 (by decide) (by decide)⟩,
    ⟨by decide, by decide, by
      have := (particleStyle_spec "255, 182, 193" "0.5").2.2 (by decide) (by decide)
      rw [this]
      decide⟩⟩

/-! ## C5: the finale fan -/

theorem finaleAux_eq (σ : RSrc) (w h : ℝ) :
    ∀ (n i k : ℕ), (finaleAux σ w h i n k).1 =
      (List.range n).map (fun j => mkFinaleFw w h (i + j) (σ (k + j)))
  | 0, i, k => by simp [finaleAux]
  | n + 1, i, k => by
    have ih := finaleAux_eq σ w h n (i + 1) (k + 1)
    rcases hR : finaleAux σ w h (i + 1) n (k + 1) with ⟨rest, k2⟩
    rw [hR] at ih
    dsimp only at ih
    simp only [finaleAux, mathRandom, hR]
    rw [List.range_succ_eq_map, List.map_cons, List.map_map]
    congr 1
    rw [ih]
    apply List.map_congr_left
    intro j _
    simp only [Function.comp_apply, Nat.succ_eq_add_one]
    have e1 : i + 1 + j = i + (j + 1) := by omega
    have e2 : k + 1 + j = k + (j + 1) := by omega
    rw [e1, e2]

theorem rangeMap_getD {α : Type} (n : ℕ) (f : ℕ → α) (i : ℕ) (d : α) (h : i < n) :
    ((List.range n).map f).getD i d = f i := by
  have hlen : i < ((List.range n).map f).length := by simpa using h
  rw [List.getD_eq_getElem?_getD, List.getElem?_eq_getElem hlen, Option.getD_some]
  simp

theorem triggerFinale_getD (σ : RSrc) (w h : ℝ) (k i : ℕ) (hi : i < 60) :
    ((triggerFinale σ w h k).1).getD i default = mkFinaleFw w h i (σ (k + i)) := by
  unfold triggerFinale
  rw [finaleAux_eq σ w h 60 0 k, rangeMap_getD 60 _ i default hi]
  rw [Nat.zero_add]

theorem mkFinaleFw_x (w h : ℝ) (i : ℕ) (r : ℝ) : (mkFinaleFw w h i r).x = w / 2 := rfl

theorem mkFinaleFw_y (w h : ℝ) (i : ℕ) (r : ℝ) : (mkFinaleFw w h i r).y = h := rfl

theorem mkFinaleFw_speed (w h : ℝ) (i : ℕ) (r : ℝ) : (mkFinaleFw w h i r).speed = 8 + r * 3 := rfl

theorem mkFinaleFw_angle (w h : ℝ) (i : ℕ) (r : ℝ) :
    (mkFinaleFw w h i r).angle =
      -(Real.pi * 0.9) + (i : ℝ) * ((-(Real.pi * 0.1) - -(Real.pi * 0.9)) / ((60 : ℕ) : ℝ)) := rfl

theorem mkFinaleFw_color (w h : ℝ) (i : ℕ) (r : ℝ) :
    (mkFinaleFw w h i r).customColor = some (finaleColor ((i : ℝ) / ((60 : ℕ) : ℝ))) := rfl

theorem finaleStep_pos :
    (0 : ℝ) < (-(Real.pi * 0.1) - -(Real.pi * 0.9)) / ((60 : ℕ) : ℝ) := by
  apply div_pos
  · nlinarith [Real.pi_pos]
  · norm_num

theorem t_lt_iff (i m : ℕ) (c : ℝ) (hc : c * 60 = (m : ℝ)) :
    ((i : ℝ) / ((60 : ℕ) : ℝ) < c) ↔ i < m := by
  have h60 : ((60 : ℕ) : ℝ) = (60 : ℝ) := by norm_num
  rw [h60, div_lt_iff (by norm_num : (0 : ℝ) < 60), hc]
  exact Nat.cast_lt

theorem finaleColor_eq_band (i : ℕ) :
    finaleColor ((i : ℝ) / ((60 : ℕ) : ℝ)) = FINALE_COLORS.getD (finaleBand i) "" := by
  unfold finaleColor finaleBand
  simp only [t_lt_iff i 9 0.15 (by norm_num), t_lt_iff i 18 0.3 (by norm_num),
    t_lt_iff i 27 0.45 (by norm_num), t_lt_iff i 36 0.6 (by norm_num),
    t_lt_iff i 45 0.75 (by norm_num), t_lt_iff i 54 0.9 (by norm_num)]
  split_ifs <;> rfl

/-- C5: the finale pushes exactly 60 projectiles, all from bottom-center
`(w/2, h)`; their launch angles are strictly increasing across the fan
(from `-0.9π` in steps of `0.8π/60`); the override color of fan index `i` is
the band color `finaleBand i` of the 7-band blue→cyan→green→yellow→red→
magenta→violet ramp, where the band index is monotone in the fan index and
every one of the 7 bands occurs; and every initial speed lies in
`[8, 11)`. -/
theorem triggerFinale_spec (σ : RSrc) (w h : ℝ) (k : ℕ) (hσ : streamFrac σ) :
    ((triggerFinale σ w h k).1).length = 60 ∧
    (∀ fw ∈ (triggerFinale σ w h k).1, fw.x = w / 2 ∧ fw.y = h) ∧
    (∀ i j : ℕ, i < j → j < 60 →
      (((triggerFinale σ w h k).1).getD i default).angle <
        (((triggerFinale σ w h k).1).getD j default).angle) ∧
    (∀ i : ℕ, i < 60 →
      (((triggerFinale σ w h k).1).getD i default).customColor =
        some (FINALE_COLORS.getD (finaleBand i) "")) ∧
    (∀ i j : ℕ, i ≤ j → j < 60 → finaleBand i ≤ finaleBand j) ∧
    (∀ b : ℕ, b < 7 → ∃ i : ℕ, i < 60 ∧ finaleBand i = b) ∧
    (∀ fw ∈ (triggerFinale σ w h k).1, 8 ≤ fw.speed ∧ fw.speed < 11) := by
  have hlist : (triggerFinale σ w h k).1 =
      (List.range 60).map (fun j => mkFinaleFw w h j (σ (k + j))) := by
    unfold triggerFinale
    rw [finaleAux_eq σ w h 60 0 k]
    apply List.map_congr_left
    intro j _
    rw [Nat.zero_add]
  refine ⟨?_, ?_, ?_, ?_, ?_, ?_, ?_⟩
  · rw [hlist]
    simp
  · intro fw hfw
    rw [hlist] at hfw
    obtain ⟨j, _, rfl⟩ := List.mem_map.1 hfw
    exact ⟨mkFinaleFw_x w h j _, mkFinaleFw_y w h j _⟩
  · intro i j hij hj
    rw [triggerFinale_getD σ w h k i (lt_trans hij hj), triggerFinale_getD σ w h k j hj,
      mkFinaleFw_angle, mkFinaleFw_angle]
    have hcast : (i : ℝ) < (j : ℝ) := by exact_mod_cast hij
    have := mul_lt_mul_of_pos_right hcast finaleStep_pos
    linarith
  · intro i hi
    rw [triggerFinale_getD σ w h k i hi, mkFinaleFw_color, finaleColor_eq_band]
  · intro i j hij hj
    have hfin : ∀ a : Fin 60, ∀ b : Fin 60, a ≤ b → finaleBand a ≤ finaleBand b := by decide
    exact hfin ⟨i, lt_of_le_of_lt hij hj⟩ ⟨j, hj⟩ hij
  · intro b hb
    have hfin : ∀ c : Fin 7, ∃ a : Fin 60, finaleBand a = c := by decide
    obtain ⟨a, ha⟩ := hfin ⟨b, hb⟩
    exact ⟨a, a.isLt, ha⟩
  · intro fw hfw
    rw [hlist] at hfw
    obtain ⟨j, _, rfl⟩ := List.mem_map.1 hfw
    rw [mkFinaleFw_speed]
    have hr := hσ (k + j)
    constructor
    · nlinarith [hr.1]
    · nlinarith [hr.2]

/-- The C5 property at a concrete viewport and the all-zero draw stream. -/
theorem triggerFinale_spec_witness :
    streamFrac (fun _ => 0) ∧
    ((triggerFinale (fun _ => 0) 800 600 0).1).length = 60 ∧
    (∀ i : ℕ, i < 60 →
      (((triggerFinale (fun _ => 0) 800 600 0).1).getD i default).customColor =
        some (FINALE_COLORS.getD (finaleBand i) "")) ∧
    (∀ fw ∈ (triggerFinale (fun _ => 0) 800 600 0).1, 8 ≤ fw.speed ∧ fw.speed < 11) := by
  have hσ : streamFrac (fun _ => 0) := fun _ => ⟨le_refl 0, by norm_num⟩
  have h := triggerFinale_spec (fun _ => 0) 800 600 0 hσ
  exact ⟨hσ, h.1, h.2.2.2.1, h.2.2.2.2.2.2⟩

/-! ## C7: drone display of a custom shape -/

theorem droneLoop_length (σ : RSrc) (x y : ℝ) :
    ∀ (pts : List Point) (k : ℕ), ((droneLoop σ x y pts k).1).length = pts.length
  | [], _ => rfl
  | p :: rest, k => by
    have ih := droneLoop_length σ x y rest (k + 1 + 1 + 1 + 1)
    rcases hR : droneLoop σ x y rest (k + 1 + 1 + 1 + 1) with ⟨ps, k5⟩
    rw [hR] at ih
    dsimp only at ih
    simp only [droneLoop, mathRandom, random, hR, List.length_cons]
    omega

theorem droneLoop_getD (σ : RSrc) (x y : ℝ) :
    ∀ (pts : List Point) (k i : ℕ), i < pts.length →
      ((droneLoop σ x y pts k).1).getD i default =
        { x := x + (pts.getD i default).x * 60, y := y + (pts.getD i default).y * 60,
          vx := (σ (k + 4 * i + 1) - 0.5) * 0.15, vy := (σ (k + 4 * i + 2) - 0.5) * 0.15,
          alpha := 1,
          color := if σ (k + 4 * i) > 0.8 then "#FFFFFF"
            else if σ (k + 4 * i) > 0.5 then "#1E90FF" else "#00FFFF",
          decay := σ (k + 4 * i + 3) * (0.06 - 0.04) + 0.04,
          useTrail := false, size := some (if σ (k + 4 * i) > 0.9 then 1.5 else 0.8),
          shimmer := true } := by
  intro pts
  induction pts with
  | nil => intro k i hi; simp at hi
  | cons p rest ih =>
    intro k i hi
    rcases hR : droneLoop σ x y rest (k + 1 + 1 + 1 + 1) with ⟨ps, k5⟩
    cases i with
    | zero =>
      simp only [droneLoop, mathRandom, random, hR, List.getD_cons_zero]
      norm_num
    | succ i =>
      have hi' : i < rest.length := by simpa using hi
      have ihr := ih (k + 1 + 1 + 1 + 1) i hi'
      rw [hR] at ihr
      dsimp only at ihr
      simp only [droneLoop, mathRandom, random, hR, List.getD_cons_succ]
      rw [ihr]
      have e0 : k + 1 + 1 + 1 + 1 + 4 * i = k + 4 * (i + 1) := by omega
      rw [e0]

/-- The 4-point unit square of the C7 scenario. -/
noncomputable def squareShape : List Point := [⟨-1, -1⟩, ⟨1, -1⟩, ⟨1, 1⟩, ⟨-1, 1⟩]

theorem abs_jitter_le (r : ℝ) (h0 : 0 ≤ r) (h1 : r < 1) : |(r - 0.5) * 0.15| ≤ 0.075 := by
  rw [abs_mul]
  have h : |r - 0.5| ≤ 0.5 := abs_le.2 ⟨by linarith, by linarith⟩
  calc |r - 0.5| * |(0.15 : ℝ)| = |r - 0.5| * 0.15 := by norm_num [abs_of_nonneg]
    _ ≤ 0.5 * 0.15 := by nlinarith
    _ ≤ 0.075 := by norm_num

/-- C7: a drone-display explosion (tag exactly `custom_shape`) at the origin
with the stored 4-point unit square creates exactly one particle per shape
point, positioned exactly at `point * 60`, with both velocity components of
magnitude at most 0.075, a color from the fixed cyan/white/blue 3-color
palette, and the trail flag false on every one. -/
theorem drone_square_spec (σ : RSrc) (hue : ℝ) (k : ℕ) (hσ : streamFrac σ) :
    ((createExplosion σ (some squareShape) 0 0 hue "custom_shape" none k).1).length = 4 ∧
    ∀ i : ℕ, i < 4 →
      (((createExplosion σ (some squareShape) 0 0 hue "custom_shape" none k).1).getD i
          default).x = (squareShape.getD i default).x * 60 ∧
      (((createExplosion σ (some squareShape) 0 0 hue "custom_shape" none k).1).getD i
          default).y = (squareShape.getD i default).y * 60 ∧
      |(((createExplosion σ (some squareShape) 0 0 hue "custom_shape" none k).1).getD i
          default).vx| ≤ 0.075 ∧
      |(((createExplosion σ (some squareShape) 0 0 hue "custom_shape" none k).1).getD i
          default).vy| ≤ 0.075 ∧
      (((createExplosion σ (some squareShape) 0 0 hue "custom_shape" none k).1).getD i
          default).color ∈ ["#00FFFF", "#FFFFFF", "#1E90FF"] ∧
      (((createExplosion σ (some squareShape) 0 0 hue "custom_shape" none k).1).getD i
          default).useTrail = false := by
  have hd : createExplosion σ (some squareShape) 0 0 hue "custom_shape" none k =
      droneLoop σ 0 0 squareShape k := by
    unfold createExplosion
    rw [if_pos ⟨rfl, rfl, by norm_num [squareShape]⟩]
    rfl
  rw [hd]
  have hlen4 : squareShape.length = 4 := by norm_num [squareShape]
  constructor
  · rw [droneLoop_length σ 0 0 squareShape k, hlen4]
  · intro i hi
    rw [droneLoop_getD σ 0 0 squareShape k i (by omega)]
    refine ⟨by norm_num, by norm_num, ?_, ?_, ?_, rfl⟩
    · exact abs_jitter_le _ (hσ (k + 4 * i + 1)).1 (hσ (k + 4 * i + 1)).2
    · exact abs_jitter_le _ (hσ (k + 4 * i + 2)).1 (hσ (k + 4 * i + 2)).2
    · split_ifs <;> simp

/-- The C7 property at the all-zero draw stream. -/
theorem drone_square_spec_witness :
    streamFrac (fun _ => 0) ∧
    ((createExplosion (fun _ => 0) (some squareShape) 0 0 0 "custom_shape" none 0).1).length
      = 4 ∧
    (((createExplosion (fun _ => 0) (some squareShape) 0 0 0 "custom_shape" none
        0).1).getD 0 default).color ∈ ["#00FFFF", "#FFFFFF", "#1E90FF"] := by
  have hσ : streamFrac (fun _ => 0) := fun _ => ⟨le_refl 0, by norm_num⟩
  have h := drone_square_spec (fun _ => 0) 0 0 hσ
  exact ⟨hσ, h.1, (h.2 0 (by norm_num)).2.2.2.2.1⟩

/-! ## C6: end-to-end standard launch from (400, 600) to (400, 100)

The launched projectile flies straight up: its angle is `-π/2`, so each
frame moves it `speed` pixels and `distanceTraveled` is the partial sum of
the geometric speeds `2 * 1.015^m`.  `stdDist` is that sum as an exact
rational, used to decide the arrival frame. -/

noncomputable def stdFw (r0 : ℝ) : Firework := launchFirework 400 600 400 100 "standard" r0

noncomputable def stdFwIter (r0 : ℝ) (n : ℕ) : Firework := fwPhys^[n] (stdFw r0)

/-- `distanceTraveled` after `n` frames of the straight-up standard launch,
as an exact rational: frame `m` adds step length `2 * 1.015^m`. -/
def stdDist : ℕ → ℚ
  | 0 => 0
  | n + 1 => stdDist n + 2 * (203 / 200) ^ (n + 1)

theorem stdDist_closed : ∀ n : ℕ, stdDist n = 406 / 3 * ((203 / 200) ^ n - 1)
  | 0 => by norm_num [stdDist]
  | n + 1 => by
    rw [stdDist, stdDist_closed n]
    ring

theorem stdDist_step_nonneg (n : ℕ) : (0 : ℚ) ≤ 2 * (203 / 200) ^ (n + 1) := by positivity

theorem stdDist_mono : ∀ a b : ℕ, a ≤ b → stdDist a ≤ stdDist b := by
  intro a b h
  induction b with
  | zero =>
    have : a = 0 := by omega
    rw [this]
  | succ b ih =>
    rcases Nat.lt_or_ge a (b + 1) with h' | h'
    · have hab : a ≤ b := by omega
      calc stdDist a ≤ stdDist b := ih hab
        _ ≤ stdDist b + 2 * (203 / 200) ^ (b + 1) := le_add_of_nonneg_right (stdDist_step_nonneg b)
        _ = stdDist (b + 1) := rfl
    · have : a = b + 1 := by omega
      rw [this]

theorem atan2_down : atan2 ((100 : ℝ) - 600) ((400 : ℝ) - 400) = -(Real.pi / 2) := by
  unfold atan2
  norm_num

theorem stdFw_fields (r0 : ℝ) :
    (stdFw r0).angle = -(Real.pi / 2) ∧ (stdFw r0).speed = 2 ∧
    (stdFw r0).distanceTraveled = 0 ∧ (stdFw r0).distanceToTarget = 500 ∧
    (stdFw r0).customColor = none ∧ (stdFw r0).type = "standard" := by
  refine ⟨atan2_down, rfl, rfl, ?_, rfl, rfl⟩
  show Real.sqrt (((400 : ℝ) - 400) ^ 2 + ((100 : ℝ) - 600) ^ 2) = 500
  rw [show ((400 : ℝ) - 400) ^ 2 + ((100 : ℝ) - 600) ^ 2 = 500 ^ 2 by norm_num]
  exact Real.sqrt_sq (by norm_num)

theorem stdFwIter_fields (r0 : ℝ) : ∀ n : ℕ,
    (stdFwIter r0 n).angle = -(Real.pi / 2) ∧
    (stdFwIter r0 n).speed = 2 * 1.015 ^ n ∧
    (stdFwIter r0 n).distanceTraveled = ((stdDist n : ℚ) : ℝ) ∧
    (stdFwIter r0 n).distanceToTarget = 500 ∧
    (stdFwIter r0 n).customColor = none ∧
    (stdFwIter r0 n).type = "standard"
  | 0 => by
    obtain ⟨ha, hs, hd, hT, hc, ht⟩ := stdFw_fields r0
    exact ⟨ha, by rw [show stdFwIter r0 0 = stdFw r0 from rfl, hs]; norm_num,
      by rw [show stdFwIter r0 0 = stdFw r0 from rfl, hd]; norm_num [stdDist], hT, hc, ht⟩
  | n + 1 => by
    obtain ⟨ha, hs, hd, hT, hc, ht⟩ := stdFwIter_fields r0 n
    have hiter : stdFwIter r0 (n + 1) = fwPhys (stdFwIter r0 n) := by
      unfold stdFwIter
      rw [Function.iterate_succ_apply']
    have hcos : Real.cos (stdFwIter r0 n).angle = 0 := by
      rw [ha, Real.cos_neg, Real.cos_pi_div_two]
    have hsin : Real.sin (stdFwIter r0 n).angle = -1 := by
      rw [ha, Real.sin_neg, Real.sin_pi_div_two]
    have hspos : (0 : ℝ) < (stdFwIter r0 n).speed * 1.015 := by
      rw [hs]
      positivity
    have hstep : calculateDistance (stdFwIter r0 n).x (stdFwIter r0 n).y
        ((stdFwIter r0 n).x + Real.cos (stdFwIter r0 n).angle * ((stdFwIter r0 n).speed * 1.015))
        ((stdFwIter r0 n).y + Real.sin (stdFwIter r0 n).angle * ((stdFwIter r0 n).speed * 1.015)) =
        (stdFwIter r0 n).speed * 1.015 := by
      unfold calculateDistance
      rw [hcos, hsin]
      rw [show ((stdFwIter r0 n).x + 0 * ((stdFwIter r0 n).speed * 1.015) -
          (stdFwIter r0 n).x) ^ 2 +
          ((stdFwIter r0 n).y + -1 * ((stdFwIter r0 n).speed * 1.015) -
          (stdFwIter r0 n).y) ^ 2 = ((stdFwIter r0 n).speed * 1.015) ^ 2 by ring]
      exact Real.sqrt_sq (le_of_lt hspos)
    rw [hiter]
    unfold fwPhys
    rw [hc]
    simp only [Option.isSome_none, Bool.false_eq_true, if_false]
    refine ⟨ha, ?_, ?_, hT, by trivial, ht⟩
    · show (stdFwIter r0 n).speed * 1.015 = 2 * 1.015 ^ (n + 1)
      rw [hs]
      ring
    · show calculateDistance _ _ _ _ + (stdFwIter r0 n).distanceTraveled = _
      rw [hstep, hd, hs]
      have hq : ((stdDist (n + 1) : ℚ) : ℝ) =
          ((stdDist n : ℚ) : ℝ) + 2 * (203 / 200 : ℝ) ^ (n + 1) := by
        rw [show stdDist (n + 1) = stdDist n + 2 * (203 / 200) ^ (n + 1) from rfl]
        push_cast
        ring
      rw [hq]
      norm_num
      ring

theorem stdFwIter_arrived_iff (r0 : ℝ) (n : ℕ) :
    arrivedB (stdFwIter r0 n) = true ↔ (500 : ℚ) ≤ stdDist n := by
  obtain ⟨_, _, hd, hT, hc, _⟩ := stdFwIter_fields r0 n
  rw [arrivedB_iff, hd, hT, hc]
  simp only [Option.isSome_none, Bool.false_eq_true, false_and, or_false]
  rw [show (500 : ℝ) = ((500 : ℚ) : ℝ) by norm_num]
  exact Rat.cast_le

theorem frameIter_std (σ : RSrc) (shape : Option (List Point)) (r0 : ℝ) (k : ℕ) :
    ∀ m : ℕ, (∀ j, 1 ≤ j → j ≤ m → arrivedB (stdFwIter r0 j) = false) →
      frameIter σ shape m ⟨[stdFw r0], []⟩ k = (⟨[stdFwIter r0 m], []⟩, k)
  | 0, _ => rfl
  | m + 1, h => by
    have ihyp := frameIter_std σ shape r0 k m (fun j h1 h2 => h j h1 (le_trans h2 (Nat.le_succ m)))
    have hstep : fwPhys (stdFwIter r0 m) = stdFwIter r0 (m + 1) := by
      unfold stdFwIter
      rw [Function.iterate_succ_apply']
    have hnotarr : arrivedB (fwPhys (stdFwIter r0 m)) = false := by
      rw [hstep]
      exact h (m + 1) (by omega) (le_refl _)
    show (let (s1, k1) := frameIter σ shape m ⟨[stdFw r0], []⟩ k; frameStep σ shape s1 k1) = _
    rw [ihyp]
    show frameStep σ shape ⟨[stdFwIter r0 m], []⟩ k = _
    unfold frameStep stepFireworks
    simp only [List.reverse_cons, List.reverse_nil, List.nil_append, fwLoop, hnotarr,
      Bool.false_eq_true, if_false]
    rw [hstep]
    rfl

/-- `createExplosion` with the tag "standard" and no override color is the
standard burst (no branch of the dispatch tests "standard"; it is the
final `else`). -/
theorem createExplosion_standard (σ : RSrc) (shape : Option (List Point)) (x y hue : ℝ)
    (k : ℕ) :
    createExplosion σ shape x y hue "standard" none k = standardBurst σ x y k := by
  unfold createExplosion
  rw [if_neg (fun hc => absurd hc.1 (by decide)), if_neg (by simp),
    if_neg (by decide : ¬("standard" = "tree_burst")),
    if_neg (by decide : ¬("standard" = "love_burst")),
    if_neg (by decide : ¬("standard" = "neon_flower")),
    if_neg (by decide : ¬("standard" = "cyan_flower")),
    if_neg (by decide : ¬("standard" = "floral_burst")),
    if_neg (by decide : ¬("standard" = "violet_burst")),
    if_neg (by decide : ¬("standard" = "strobe_flower")),
    if_neg (by decide : ¬("standard" = "gold_flower")),
    if_neg (by decide : ¬("standard" = "galaxy")),
    if_neg (by decide : ¬("standard" = "heart")),
    if_neg (by decide : ¬("standard" = "ring")),
    if_neg (by decide : ¬("standard" = "glitter")),
    if_neg (by decide : ¬("standard" = "palm")),
    if_neg (by decide : ¬("standard" = "cosmic")),
    if_neg (by decide : ¬("standard" = "streamer"))]

/-- C6: launch a standard-pattern projectile from (400, 600) toward
(400, 100) (distance 500) and run the frame loop; at the first frame `N`
whose updated `distanceTraveled` reaches 500 (the removal test of line 680,
which for this colorless projectile is exactly `500 ≤ distanceTraveled`),
the projectile is gone from the live set, exactly 60 new particles were
created by its one explosion call, each carrying one of the 6 standard
palette colors and an initial alpha in `[0.6, 1]`, and the live particle
set after that frame is exactly those 60 particles (already advanced one
frame, since the particle pass of the same frame processes them). -/
theorem standard_launch_end_to_end (σ : RSrc) (shape : Option (List Point)) (r0 : ℝ)
    (k N : ℕ) (hσ : streamFrac σ)
    (h1 : arrivedB (stdFwIter r0 N) = true)
    (h2 : ∀ m, m < N → arrivedB (stdFwIter r0 m) = false) :
    ((frameIter σ shape N ⟨[stdFw r0], []⟩ k).1).fireworks = [] ∧
    ((createExplosion σ shape (stdFwIter r0 N).x (stdFwIter r0 N).y (stdFwIter r0 N).hue
        (stdFwIter r0 N).type (stdFwIter r0 N).customColor k).1).length = 60 ∧
    (∀ p ∈ (createExplosion σ shape (stdFwIter r0 N).x (stdFwIter r0 N).y (stdFwIter r0 N).hue
        (stdFwIter r0 N).type (stdFwIter r0 N).customColor k).1,
      p.color ∈ STANDARD_COLORS ∧ 0.6 ≤ p.alpha ∧ p.alpha ≤ 1) ∧
    ((frameIter σ shape N ⟨[stdFw r0], []⟩ k).1).particles =
      ((createExplosion σ shape (stdFwIter r0 N).x (stdFwIter r0 N).y (stdFwIter r0 N).hue
        (stdFwIter r0 N).type (stdFwIter r0 N).customColor k).1).map pPhysDet ∧
    (((frameIter σ shape N ⟨[stdFw r0], []⟩ k).1).particles).length = 60 := by
  obtain ⟨_, _, _, _, hc, ht⟩ := stdFwIter_fields r0 N
  have hB : createExplosion σ shape (stdFwIter r0 N).x (stdFwIter r0 N).y (stdFwIter r0 N).hue
      (stdFwIter r0 N).type (stdFwIter r0 N).customColor k =
      standardBurst σ (stdFwIter r0 N).x (stdFwIter r0 N).y k := by
    rw [ht, hc, createExplosion_standard]
  have hBlen := standardBurst_length σ (stdFwIter r0 N).x (stdFwIter r0 N).y k
  have hBmem := standardBurst_mem σ (stdFwIter r0 N).x (stdFwIter r0 N).y k hσ
  rcases hBpair : standardBurst σ (stdFwIter r0 N).x (stdFwIter r0 N).y k with ⟨Bp, k1⟩
  rw [hBpair] at hBlen hBmem
  dsimp only at hBlen hBmem
  have hfilter : (Bp.map pPhysDet).filter (fun q => !decide (q.alpha ≤ 0)) = Bp.map pPhysDet := by
    apply List.filter_eq_self.2
    intro q hq
    obtain ⟨p, hp, rfl⟩ := List.mem_map.1 hq
    have hfacts := hBmem p hp
    have hpos : 0 < p.alpha - p.decay := by
      nlinarith [hfacts.2.1, hfacts.2.2.2.2.1]
    simp only [pPhysDet_alpha, Bool.not_eq_true', decide_eq_false_iff_not, not_le]
    exact hpos
  have hBshim : ∀ q ∈ Bp, q.shimmer = false := fun q hq => (hBmem q hq).2.2.2.2.2.1
  cases N with
  | zero =>
    exfalso
    have h0 := (stdFwIter_arrived_iff r0 0).1 h1
    rw [show stdDist 0 = 0 from rfl] at h0
    norm_num at h0
  | succ M =>
    have hM := frameIter_std σ shape r0 k M (fun j _ hj2 => h2 j (by omega))
    have hstep : fwPhys (stdFwIter r0 M) = stdFwIter r0 (M + 1) := by
      unfold stdFwIter
      rw [Function.iterate_succ_apply']
    have hFrame : frameIter σ shape (M + 1) ⟨[stdFw r0], []⟩ k =
        frameStep σ shape ⟨[stdFwIter r0 M], []⟩ k := by
      show (let (s1, k1) := frameIter σ shape M ⟨[stdFw r0], []⟩ k;
        frameStep σ shape s1 k1) = _
      rw [hM]
    have hFS : frameStep σ shape ⟨[stdFwIter r0 M], []⟩ k =
        (⟨[], Bp.map pPhysDet⟩, k1) := by
      unfold frameStep stepFireworks
      simp only [List.reverse_cons, List.reverse_nil, List.nil_append, fwLoop, hstep, h1,
        if_true]
      rw [hB, hBpair]
      simp only [List.reverse_nil, List.append_nil, List.nil_append]
      rw [stepParticles_nonshimmer σ Bp k1 hBshim, hfilter]
    refine ⟨?_, ?_, ?_, ?_, ?_⟩
    · rw [hFrame, hFS]
    · rw [hB, hBpair]
      exact hBlen
    · rw [hB, hBpair]
      intro p hp
      have hfacts := hBmem p hp
      exact ⟨hfacts.1, hfacts.2.1, le_of_lt hfacts.2.2.1⟩
    · rw [hFrame, hFS, hB, hBpair]
    · rw [hFrame, hFS]
      simp only [List.length_map]
      exact hBlen

/-- The C6 property at the concrete arrival frame: with speed `2 * 1.015^m`
per frame, the accumulated distance first reaches 500 at frame 104
(`stdDist 103 < 500 ≤ stdDist 104`, decided by exact rational
arithmetic). -/
theorem standard_launch_end_to_end_witness :
    streamFrac (fun _ => 0) ∧
    arrivedB (stdFwIter 0 104) = true ∧
    (∀ m, m < 104 → arrivedB (stdFwIter 0 m) = false) ∧
    ((frameIter (fun _ => 0) none 104 ⟨[stdFw 0], []⟩ 0).1).fireworks = [] ∧
    ((createExplosion (fun _ => 0) none (stdFwIter 0 104).x (stdFwIter 0 104).y
        (stdFwIter 0 104).hue (stdFwIter 0 104).type (stdFwIter 0 104).customColor 0).1).length
      = 60 ∧
    (((frameIter (fun _ => 0) none 104 ⟨[stdFw 0], []⟩ 0).1).particles).length = 60 := by
  have hσ : streamFrac (fun _ => 0) := fun _ => ⟨le_refl 0, by norm_num⟩
  have h1 : arrivedB (stdFwIter 0 104) = true := by
    rw [stdFwIter_arrived_iff, stdDist_closed]
    norm_num
  have h103 : stdDist 103 < 500 := by
    rw [stdDist_closed]
    norm_num
  have h2 : ∀ m, m < 104 → arrivedB (stdFwIter 0 m) = false := by
    intro m hm
    rw [Bool.eq_false_iff]
    intro htrue
    have hq := (stdFwIter_arrived_iff 0 m).1 htrue
    have hmono := stdDist_mono m 103 (by omega)
    linarith
  have h := standard_launch_end_to_end (fun _ => 0) none 0 0 104 hσ h1 h2
  exact ⟨hσ, h1, h2, h.1, h.2.1, h.2.2.2.2⟩
